import Mathlib

/-!
# ssl_test: the timed request runner and the profile matrix driver

A shallow embedding of `main.go`.  The program talks to the outside world
(clock, network, standard output, logger, process exit); the embedding makes
that explicit: the outside world is an `Env` of oracles, the program threads a
`World` that counts what it has consumed and records every effect it performs
in a trace, and a call ends in an `Outcome`.

Library code the program calls (binary64 arithmetic, the moving-average
package, `crypto/tls`'s LRU session cache, `net/http`'s `Client.Do`) is not
part of `main.go`; the models used for it are marked as such.
-/

namespace SSLTest

/-! ## Durations and binary64 arithmetic -/

/-- A `time.Duration`: a signed count of nanoseconds (an `int64` in Go). -/
abbrev Duration := Int

/-- Nearest integer to a rational, ties going to the even neighbour. -/
def roundHalfEven (x : ℚ) : Int :=
  if x - ⌊x⌋ < 1 / 2 then ⌊x⌋
  else if 1 / 2 < x - ⌊x⌋ then ⌊x⌋ + 1
  else if ⌊x⌋ % 2 = 0 then ⌊x⌋ else ⌊x⌋ + 1

/-- Binary exponent of the unit in the last place of the binary64 number
nearest to `q`: 53 significant bits, and never below the subnormal exponent
`-1074`. -/
def f64Exponent (q : ℚ) : Int := max (Int.log 2 |q| - 52) (-1074)

/-- A `float64`.  A finite binary64 value is modelled by the rational it
denotes; `none` stands for the non-finite values (infinities and NaN). -/
abbrev Float64 := Option ℚ

/-- IEEE 754 rounding of an exact result to binary64, round-to-nearest with
ties to even; a result of magnitude `2^1024` or more overflows. -/
def f64Round (q : ℚ) : Float64 :=
  if |(roundHalfEven (q / 2 ^ f64Exponent q) : ℚ) * 2 ^ f64Exponent q| < 2 ^ 1024 then
    some ((roundHalfEven (q / 2 ^ f64Exponent q) : ℚ) * 2 ^ f64Exponent q)
  else none

/-- The conversion `float64(z)` of an integer. -/
def float64OfInt (z : Int) : Float64 := f64Round z

/-- The sum `a + b` of two `float64`s. -/
def f64Add (a b : Float64) : Float64 :=
  a.bind fun x => b.bind fun y => f64Round (x + y)

/-- The quotient `a / b` of two `float64`s (a zero divisor gives a non-finite
value). -/
def f64Div (a b : Float64) : Float64 :=
  a.bind fun x => b.bind fun y => if y = 0 then none else f64Round (x / y)

/-- The conversion `time.Duration(x)` of a `float64`: the fraction is
discarded (truncation towards zero).  Go leaves the result unspecified when
the value is not finite or does not fit an `int64`; that is `none` here. -/
def durationOfFloat64 (x : Float64) : Option Duration :=
  x.bind fun q =>
    if -2 ^ 63 ≤ (if 0 ≤ q then ⌊q⌋ else ⌈q⌉) ∧ (if 0 ≤ q then ⌊q⌋ else ⌈q⌉) < 2 ^ 63 then
      some (if 0 ≤ q then ⌊q⌋ else ⌈q⌉)
    else none

/-! ## The moving-average package -/

/-- Modelled from the spec: the fixed-window moving-average reducer of the
third-party package `movingaverage`, which `main.go` imports and which is not
among the sources.  A window of `Window` slots is filled in a ring; `valPos`
is the next slot to write and `slotsFilled` records that every slot has been
written at least once. -/
structure MovingAverage where
  Window : Nat
  values : List Float64
  valPos : Nat
  slotsFilled : Bool

/-- Modelled from the spec: `movingaverage.New(window)`, an empty reducer of
the given window size. -/
def MovingAverage.New (window : Nat) : MovingAverage :=
  { Window := window, values := List.replicate window (some 0), valPos := 0, slotsFilled := false }

/-- Modelled from the spec: `ma.Add(val)` stores `val` in the next slot of the
ring.  `none` is a run-time panic (no slot to write to: a window of size 0). -/
def MovingAverage.Add (ma : MovingAverage) (val : Float64) : Option MovingAverage :=
  if ma.valPos < ma.values.length ∧ ma.Window ≠ 0 then
    some { Window := ma.Window
           values := ma.values.set ma.valPos val
           valPos := (ma.valPos + 1) % ma.Window
           slotsFilled := ma.slotsFilled || ((ma.valPos + 1) % ma.Window == 0) }
  else none

/-- Modelled from the spec: `ma.Avg()`, the mean of the slots written so far
(of all `Window` slots once the ring is full), summed in slot order starting
from `float64(0)` and divided by their number; `0` for an empty reducer. -/
def MovingAverage.Avg (ma : MovingAverage) : Float64 :=
  if ma.slotsFilled then
    f64Div ((ma.values.take ma.Window).foldl f64Add (some 0)) (float64OfInt ma.Window)
  else if ma.valPos = 0 then some 0
  else f64Div ((ma.values.take ma.valPos).foldl f64Add (some 0)) (float64OfInt ma.valPos)

/-! ## TLS session caches -/

/-- A `tls.ClientSessionState`, the state needed to resume a TLS session. -/
structure ClientSessionState where
  sessionTicket : List Nat
deriving DecidableEq, Repr

/-- The type `noCache struct{}` of `main.go`. -/
structure noCache where
deriving DecidableEq, Repr

/-- The method `func (c *noCache) Put(string, *tls.ClientSessionState) {}`. -/
def noCache.Put (c : noCache) (_sessionKey : String) (_cs : Option ClientSessionState) : noCache := c

/-- The method `func (c *noCache) Get(string) (*tls.ClientSessionState, bool)`:
it returns `new(tls.ClientSessionState), false`. -/
def noCache.Get (_c : noCache) (_sessionKey : String) : Option ClientSessionState × Bool :=
  (some { sessionTicket := [] }, false)

/-- Modelled from the spec: the bounded least-recently-used session cache of
`crypto/tls`, which is not among the sources.  The entries are kept most
recently used first. -/
structure LRUCache where
  capacity : Nat
  entries : List (String × Option ClientSessionState)
deriving DecidableEq, Repr

/-- Modelled from the spec: `tls.NewLRUClientSessionCache(capacity)`, an empty
cache holding at most `capacity` entries (a capacity below 1 selects the
library default of 64). -/
def NewLRUClientSessionCache (capacity : Int) : LRUCache :=
  { capacity := if capacity < 1 then 64 else capacity.toNat, entries := [] }

/-- Modelled from the spec: `Put` on the LRU cache.  An entry for a key that is
present is replaced; a new key is added, evicting the least recently used
entry when the cache is full.  The entry written becomes the most recently
used one. -/
def LRUCache.Put (c : LRUCache) (sessionKey : String) (cs : Option ClientSessionState) : LRUCache :=
  if c.entries.any (fun e => e.1 == sessionKey) then
    { c with entries := (sessionKey, cs) :: c.entries.filter (fun e => e.1 != sessionKey) }
  else if c.entries.length < c.capacity then
    { c with entries := (sessionKey, cs) :: c.entries }
  else
    { c with entries := (sessionKey, cs) :: c.entries.dropLast }

/-- Modelled from the spec: `Get` on the LRU cache.  A hit returns the stored
state and `true` and makes the entry the most recently used one; a miss
returns `nil, false`. -/
def LRUCache.Get (c : LRUCache) (sessionKey : String) :
    (Option ClientSessionState × Bool) × LRUCache :=
  match c.entries.find? (fun e => e.1 == sessionKey) with
  | some e =>
    ((e.2, true), { c with entries := e :: c.entries.filter (fun e => e.1 != sessionKey) })
  | none => ((none, false), c)

/-- The two implementations of `tls.ClientSessionCache` the program uses. -/
inductive SessionCache
  | lru (c : LRUCache)
  | null (c : noCache)
deriving DecidableEq, Repr

/-! ## Clients -/

/-- The fields of `tls.Config` the program sets (the zero value has session
tickets enabled and no cache). -/
structure TLSConfig where
  SessionTicketsDisabled : Bool
  ClientSessionCache : Option SessionCache
deriving DecidableEq, Repr

/-- The fields of `http.Transport` the program sets. -/
structure HttpTransport where
  DisableKeepAlives : Bool
  TLSClientConfig : TLSConfig
deriving DecidableEq, Repr

/-- An `http.Request` as the program builds it: method, URL and the
`User-Agent` header. -/
structure Request where
  method : String
  url : String
  userAgent : String
deriving DecidableEq, Repr

/-- What the program's `CheckRedirect` functions can return besides `nil`. -/
inductive GoError
  | ErrUseLastResponse
  | other (msg : String)
deriving DecidableEq, Repr

/-- An `http.Client`: the redirect policy (`none` is a `nil` error: follow the
redirect) and the transport. -/
structure HttpClient where
  CheckRedirect : Request → List Request → Option GoError
  Transport : HttpTransport

/-- A response as far as the program can tell: the status code, and the target
of the redirect when the response is one. -/
structure Response where
  statusCode : Nat
  redirect : Option String
deriving DecidableEq, Repr

/-- The result of one round trip of the transport. -/
inductive RoundTripResult
  | response (res : Response)
  | error (msg : String)
deriving DecidableEq, Repr

/-! ## The outside world -/

/-- The struct `config` of `main.go`. -/
structure config where
  host : String
  requests : Int
  sleep : Duration
  protocol : String
deriving DecidableEq, Repr

/-- Every effect the program performs, in the order of the trace. -/
inductive Event
  /-- The call `log.SetLevel(level)` -/
  | setLevel (level : Nat)
  /-- The call `fmt.Println(s)` -/
  | println (s : String)
  /-- The call `fmt.Println("avg duration: ", avgduration)` -/
  | printlnAvg (avgduration : Option Duration)
  /-- The call `log.Debug("config: ", conf)` -/
  | debugConfig (conf : config)
  /-- The call `log.Debug("count: ", i)` -/
  | debugCount (i : Int)
  /-- The call `log.Debug("duration: ", duration)` -/
  | debugDuration (duration : Duration)
  /-- The call `log.Debug("sleeping for ", conf.sleep)` -/
  | debugSleeping (sleep : Duration)
  /-- The call `time.Now()` that records the start -/
  | now
  /-- The call `client.Do(req)` is entered -/
  | clientDo (req : Request)
  /-- The transport sends one request and waits for its response -/
  | roundTrip (tr : HttpTransport) (req : Request)
  /-- The call `time.Since(start)` returned this duration -/
  | since (duration : Duration)
  /-- The call `io.Copy(ioutil.Discard, res.Body)` -/
  | drainBody
  /-- The call `res.Body.Close()` -/
  | closeBody
  /-- The call `time.Sleep(d)` -/
  | sleep (d : Duration)
  /-- The call `log.Fatal(err)`: the error is logged and the process exits -/
  | fatal (err : String)
deriving DecidableEq, Repr

/-- The oracles of the outside world: what `log.ParseLevel` accepts, whether
`http.NewRequest` can parse a URL (it returns a nil request and an error when
it cannot), the result of the k-th round trip on the wire, and the k-th
reading of `time.Since`. -/
structure Env where
  parseLevel : String → Option Nat
  parseURL : String → Bool
  roundTrip : Nat → RoundTripResult
  since : Nat → Duration

/-- What the program has consumed and done so far. -/
structure World where
  roundTrips : Nat
  stopwatch : Nat
  trace : List Event
deriving DecidableEq, Repr

/-- Record one effect. -/
def World.emit (w : World) (e : Event) : World :=
  { w with trace := w.trace ++ [e] }

/-- How a call ends: it returns, the process exits through `log.Fatal`, a
run-time panic, or it never returns. -/
inductive Outcome
  | returned (w : World)
  | exited (w : World)
  | panicked (w : World)
  | hung (w : World)
deriving DecidableEq, Repr

/-- Sequencing of statements: what follows runs only when the call returned. -/
def Outcome.andThen (o : Outcome) (f : World → Outcome) : Outcome :=
  match o with
  | .returned w => f w
  | .exited w => .exited w
  | .panicked w => .panicked w
  | .hung w => .hung w

/-- The result of `client.Do`: a response, an error, or no result yet after
the allowed number of round trips. -/
inductive DoResult
  | ok (res : Response)
  | err (msg : String)
  | pending
deriving DecidableEq, Repr

/-- Modelled from the spec: `client.Do(req)` of `net/http`, which is not among
the sources.  The transport performs a round trip; an error is returned as
is; a response that is a redirect is submitted to `CheckRedirect` together
with the requests made so far, and is returned unfollowed on
`ErrUseLastResponse`, turned into an error on any other error, and followed by
a further round trip on `nil`.  `maxHops` bounds the number of round trips the
model performs. -/
def clientDo (env : Env) (client : HttpClient) :
    Nat → Request → List Request → World → DoResult × World
  | 0, _, _, w => (.pending, w)
  | maxHops + 1, req, via, w =>
    match env.roundTrip w.roundTrips with
    | .error msg =>
      (.err msg, { roundTrips := w.roundTrips + 1, stopwatch := w.stopwatch
                   trace := w.trace ++ [Event.roundTrip client.Transport req] })
    | .response res =>
      match res.redirect with
      | none =>
        (.ok res, { roundTrips := w.roundTrips + 1, stopwatch := w.stopwatch
                    trace := w.trace ++ [Event.roundTrip client.Transport req] })
      | some location =>
        match client.CheckRedirect { req with url := location } (via ++ [req]) with
        | some GoError.ErrUseLastResponse =>
          (.ok res, { roundTrips := w.roundTrips + 1, stopwatch := w.stopwatch
                      trace := w.trace ++ [Event.roundTrip client.Transport req] })
        | some (GoError.other msg) =>
          (.err msg, { roundTrips := w.roundTrips + 1, stopwatch := w.stopwatch
                       trace := w.trace ++ [Event.roundTrip client.Transport req] })
        | none =>
          clientDo env client maxHops { req with url := location } (via ++ [req])
            { roundTrips := w.roundTrips + 1, stopwatch := w.stopwatch
              trace := w.trace ++ [Event.roundTrip client.Transport req] }

/-! ## The timed request runner -/

/-- How the request loop of `run` ends: with the collected durations, or by
ending the call. -/
inductive LoopResult
  | done (durations : List Duration) (w : World)
  | stopped (o : Outcome)
deriving DecidableEq, Repr

/-- The loop `for i := 0; i < conf.requests; i++ { ... }` of `run`, with the
number of iterations still to run, the loop counter `i` and the slice
`durations` as loop state. -/
def requestLoop (env : Env) (maxHops : Nat) (client : HttpClient) (conf : config) (req : Request) :
    Nat → Int → List Duration → World → LoopResult
  | 0, _, durations, w => .done durations w
  | remaining + 1, i, durations, w =>
    match clientDo env client maxHops req [] ((w.emit .now).emit (.clientDo req)) with
    | (.pending, w1) => .stopped (.hung w1)
    | (.err msg, w1) =>
      .stopped (.exited
        { roundTrips := w1.roundTrips, stopwatch := w1.stopwatch + 1
          trace := w1.trace ++ [Event.since (env.since w1.stopwatch), Event.fatal msg] })
    | (.ok _, w1) =>
      requestLoop env maxHops client conf req remaining (i + 1)
        (durations ++ [env.since w1.stopwatch])
        { roundTrips := w1.roundTrips, stopwatch := w1.stopwatch + 1
          trace := w1.trace ++
            [Event.since (env.since w1.stopwatch), Event.drainBody, Event.closeBody,
             Event.debugCount i, Event.debugDuration (env.since w1.stopwatch),
             Event.debugSleeping conf.sleep, Event.sleep conf.sleep] }

/-- The loop `for _, duration := range durations { ma.Add(float64(duration)) }`
of `run`. -/
def addAll : List Duration → MovingAverage → Option MovingAverage
  | [], ma => some ma
  | duration :: rest, ma => (ma.Add (float64OfInt duration)).bind (addAll rest)

/-- The request `run` builds: `http.NewRequest("HEAD", conf.protocol+"://"+conf.host, nil)`
with the header `User-Agent` set to `"SSLTest-"+suffix`. -/
def requestOf (conf : config) (suffix : String) : Request :=
  { method := "HEAD", url := conf.protocol ++ "://" ++ conf.host, userAgent := "SSLTest-" ++ suffix }

/-- The function `run` of `main.go`.  The request is built once, before the
loop.  The source discards the error of `http.NewRequest`
(`req, _ := http.NewRequest(...)`): when the URL does not parse, `req` is nil
and the next statement, `req.Header.Set(...)`, dereferences it, a run-time
panic that ends the program before any request is issued. -/
def run (env : Env) (maxHops : Nat) (client : HttpClient) (conf : config) (suffix : String)
    (w : World) : Outcome :=
  if env.parseURL (conf.protocol ++ "://" ++ conf.host) = true then
    match requestLoop env maxHops client conf (requestOf conf suffix)
        conf.requests.toNat 0 [] (w.emit (.debugConfig conf)) with
    | .stopped o => o
    | .done durations w1 =>
      match addAll durations (MovingAverage.New durations.length) with
      | none => .panicked w1
      | some ma => .returned (w1.emit (.printlnAvg (durationOfFloat64 ma.Avg)))
  else .panicked (w.emit (.debugConfig conf))

/-! ## The profile matrix driver -/

/-- The redirect policy every profile installs:
`func(req *http.Request, via []*http.Request) error { return http.ErrUseLastResponse }`. -/
def useLastResponse : Request → List Request → Option GoError :=
  fun _req _via => some GoError.ErrUseLastResponse

/-- The transport `tr` built by `run_no_session_resume_and_no_keepalive`. -/
def run_no_session_resume_and_no_keepalive.tr : HttpTransport :=
  { DisableKeepAlives := true
    TLSClientConfig :=
      { SessionTicketsDisabled := true
        ClientSessionCache := some (.null {}) } }

/-- The client built by `run_no_session_resume_and_no_keepalive`. -/
def run_no_session_resume_and_no_keepalive.client : HttpClient :=
  { CheckRedirect := useLastResponse
    Transport := run_no_session_resume_and_no_keepalive.tr }

/-- The function `run_no_session_resume_and_no_keepalive` of `main.go`. -/
def run_no_session_resume_and_no_keepalive (env : Env) (maxHops : Nat) (conf : config)
    (w : World) : Outcome :=
  run env maxHops run_no_session_resume_and_no_keepalive.client conf
    "run_no_session_resume_and_no_keepalive"
    (w.emit (.println "no session resume and no keepalive"))

/-- The transport `tr` built by `run_no_keepalive`. -/
def run_no_keepalive.tr : HttpTransport :=
  { DisableKeepAlives := true
    TLSClientConfig :=
      { SessionTicketsDisabled := false
        ClientSessionCache := some (.lru (NewLRUClientSessionCache 1)) } }

/-- The client built by `run_no_keepalive`. -/
def run_no_keepalive.client : HttpClient :=
  { CheckRedirect := useLastResponse
    Transport := run_no_keepalive.tr }

/-- The function `run_no_keepalive` of `main.go`. -/
def run_no_keepalive (env : Env) (maxHops : Nat) (conf : config) (w : World) : Outcome :=
  run env maxHops run_no_keepalive.client conf "run_no_keepalive"
    (w.emit (.println "no keepalive"))

/-- The transport `tr` built by `run_no_session_resume`. -/
def run_no_session_resume.tr : HttpTransport :=
  { DisableKeepAlives := false
    TLSClientConfig :=
      { SessionTicketsDisabled := true
        ClientSessionCache := some (.null {}) } }

/-- The client built by `run_no_session_resume`. -/
def run_no_session_resume.client : HttpClient :=
  { CheckRedirect := useLastResponse
    Transport := run_no_session_resume.tr }

/-- The function `run_no_session_resume` of `main.go`. -/
def run_no_session_resume (env : Env) (maxHops : Nat) (conf : config) (w : World) : Outcome :=
  run env maxHops run_no_session_resume.client conf "run_no_session_resume"
    (w.emit (.println "no session resume"))

/-- The transport `tr` built by `run_default`. -/
def run_default.tr : HttpTransport :=
  { DisableKeepAlives := false
    TLSClientConfig :=
      { SessionTicketsDisabled := false
        ClientSessionCache := some (.lru (NewLRUClientSessionCache 1)) } }

/-- The client built by `run_default`. -/
def run_default.client : HttpClient :=
  { CheckRedirect := useLastResponse
    Transport := run_default.tr }

/-- The function `run_default` of `main.go`. -/
def run_default (env : Env) (maxHops : Nat) (conf : config) (w : World) : Outcome :=
  run env maxHops run_default.client conf "run_default" (w.emit (.println "default"))

/-- The function `main` of `main.go`, given the values of the four flags. -/
def main (env : Env) (maxHops : Nat) (host : String) (requests : Int) (loglevel : String)
    (sleep : Duration) (w : World) : Outcome :=
  match env.parseLevel loglevel with
  | none => .exited (w.emit (.fatal "can not parse loglevel from flag"))
  | some level =>
    (run_default env maxHops
        { host := host, requests := requests, sleep := sleep, protocol := "http" }
        ((w.emit (.setLevel level)).emit (.println "http"))).andThen fun w1 =>
    (run_no_keepalive env maxHops
        { host := host, requests := requests, sleep := sleep, protocol := "http" } w1).andThen
      fun w2 =>
    (run_default env maxHops
        { host := host, requests := requests, sleep := sleep, protocol := "https" }
        (w2.emit (.println "https"))).andThen fun w3 =>
    (run_no_keepalive env maxHops
        { host := host, requests := requests, sleep := sleep, protocol := "https" } w3).andThen
      fun w4 =>
    (run_no_session_resume env maxHops
        { host := host, requests := requests, sleep := sleep, protocol := "https" } w4).andThen
      fun w5 =>
    run_no_session_resume_and_no_keepalive env maxHops
      { host := host, requests := requests, sleep := sleep, protocol := "https" } w5

/-! ## Vocabulary of the statements -/

/-- The world before the program has done anything. -/
def World.init : World := { roundTrips := 0, stopwatch := 0, trace := [] }

/-- The effects of one iteration of the request loop in which the request
succeeds after one round trip: `i` is the loop counter and `d` the measured
duration. -/
def iterationEvents (tr : HttpTransport) (conf : config) (req : Request) (i : Int)
    (d : Duration) : List Event :=
  [Event.now, Event.clientDo req, Event.roundTrip tr req, Event.since d, Event.drainBody,
   Event.closeBody, Event.debugCount i, Event.debugDuration d, Event.debugSleeping conf.sleep,
   Event.sleep conf.sleep]

/-- The effects of `k` successful iterations in a row, the first with loop
counter `i` and stopwatch reading number `s`. -/
def loopEvents (env : Env) (tr : HttpTransport) (conf : config) (req : Request) (i : Int)
    (s : Nat) (k : Nat) : List Event :=
  (List.range k).flatMap fun j => iterationEvents tr conf req (i + j) (env.since (s + j))

/-- The `k` stopwatch readings starting with reading number `s`. -/
def readings (env : Env) (s : Nat) (k : Nat) : List Duration :=
  (List.range k).map fun j => env.since (s + j)

/-- The mean as the program computes it: the samples are converted to
`float64` and summed in order starting from `float64(0)`, and the sum is
divided by `float64` of their number. -/
def floatMean (samples : List Duration) : Float64 :=
  f64Div ((samples.map float64OfInt).foldl f64Add (some 0)) (float64OfInt samples.length)

/-- The six steps of an iteration the specification names: record the start,
issue the request, record the elapsed time, drain the body, close the body,
sleep. -/
def Event.isStep : Event → Bool
  | .now => true
  | .clientDo _ => true
  | .since _ => true
  | .drainBody => true
  | .closeBody => true
  | .sleep _ => true
  | _ => false

/-- The lines that outline a run of the program: what is printed on standard
output, and the configuration each call of `run` logs on entry. -/
def Event.isOutline : Event → Bool
  | .println _ => true
  | .printlnAvg _ => true
  | .debugConfig _ => true
  | _ => false

/-- The event is a round trip of the transport. -/
def Event.isRoundTrip : Event → Bool
  | .roundTrip _ _ => true
  | _ => false

/-- The event is the entry of a call of `client.Do`. -/
def Event.isDo : Event → Bool
  | .clientDo _ => true
  | _ => false

/-- The event is the entry of a call of `run`. -/
def Event.isRunEntry : Event → Bool
  | .debugConfig _ => true
  | _ => false

/-- The event is the line printing an average. -/
def Event.isAverage : Event → Bool
  | .printlnAvg _ => true
  | _ => false

/-- A URL without a space: `net/url` rejects a space in a host name, as in
`http://exa mple.test`, and parses the URLs of the examples, such as
`http://example.test`. -/
def withoutSpace (url : String) : Bool :=
  url.toList.all fun c => c != Char.ofNat 32

/-- An outside world in which every log level parses, a URL parses unless it
has a space, every request is answered `200 OK` and the stopwatch readings are
the given ones (then 0). -/
def Env.answering (samples : List Duration) : Env :=
  { parseLevel := fun _ => some 4
    parseURL := withoutSpace
    roundTrip := fun _ => .response { statusCode := 200, redirect := none }
    since := fun k => samples.getD k 0 }

/-- An outside world in which every request is answered by a redirect. -/
def Env.redirecting (samples : List Duration) : Env :=
  { parseLevel := fun _ => some 4
    parseURL := withoutSpace
    roundTrip := fun _ => .response { statusCode := 302, redirect := some "http://elsewhere.test" }
    since := fun k => samples.getD k 0 }

/-- An outside world in which round trip number `k` (counted from 0) fails
with a connection error and every other request is answered `200 OK`. -/
def Env.failingAt (k : Nat) (samples : List Duration) : Env :=
  { parseLevel := fun _ => some 4
    parseURL := withoutSpace
    roundTrip := fun j =>
      if j = k then .error "connection refused"
      else .response { statusCode := 200, redirect := none }
    since := fun j => samples.getD j 0 }

/-- The average `run` prints for the samples it collected: `0` when there is
none, and else their `floatMean` converted to a duration. -/
def reportedAverage (samples : List Duration) : Option Duration :=
  if samples = [] then some 0 else durationOfFloat64 (floatMean samples)

/-- The effects of a call of `run` all of whose `n` requests succeed after one
round trip each, `s` being the number of the first stopwatch reading. -/
def runEvents (env : Env) (tr : HttpTransport) (conf : config) (suffix : String)
    (s n : Nat) : List Event :=
  Event.debugConfig conf ::
    (loopEvents env tr conf (requestOf conf suffix) 0 s n ++
      [Event.printlnAvg (reportedAverage (readings env s n))])

/-- The effects of a call of `run` whose first `k` requests succeed and whose
next request fails with the error `msg`. -/
def failedRunEvents (env : Env) (tr : HttpTransport) (conf : config) (suffix : String)
    (s k : Nat) (msg : String) : List Event :=
  Event.debugConfig conf ::
    (loopEvents env tr conf (requestOf conf suffix) 0 s k ++
      [Event.now, Event.clientDo (requestOf conf suffix),
       Event.roundTrip tr (requestOf conf suffix), Event.since (env.since (s + k)),
       Event.fatal msg])

/-- The configuration `main` passes to the profiles under a protocol. -/
def confOf (host : String) (requests : Int) (sleep : Duration) (protocol : String) : config :=
  { host := host, requests := requests, sleep := sleep, protocol := protocol }

/-- The effects of `main` from the first line it prints when every request
succeeds after one round trip: `n` is the number of requests per profile and
`r` the number of the first stopwatch reading. -/
def mainEvents (env : Env) (host : String) (requests : Int) (sleep : Duration)
    (r n : Nat) : List Event :=
  [Event.println "http", Event.println "default"] ++
  runEvents env run_default.tr (confOf host requests sleep "http") "run_default" r n ++
  [Event.println "no keepalive"] ++
  runEvents env run_no_keepalive.tr (confOf host requests sleep "http") "run_no_keepalive"
    (r + n) n ++
  [Event.println "https", Event.println "default"] ++
  runEvents env run_default.tr (confOf host requests sleep "https") "run_default"
    (r + n + n) n ++
  [Event.println "no keepalive"] ++
  runEvents env run_no_keepalive.tr (confOf host requests sleep "https") "run_no_keepalive"
    (r + n + n + n) n ++
  [Event.println "no session resume"] ++
  runEvents env run_no_session_resume.tr (confOf host requests sleep "https")
    "run_no_session_resume" (r + n + n + n + n) n ++
  [Event.println "no session resume and no keepalive"] ++
  runEvents env run_no_session_resume_and_no_keepalive.tr (confOf host requests sleep "https")
    "run_no_session_resume_and_no_keepalive" (r + n + n + n + n + n) n

/-- The program is between two profiles, `q` calls of `run` having returned
after `n` round trips each. -/
def Between (n : Nat) (w : World) (q : Nat) : Prop :=
  w.roundTrips = q * n ∧ w.trace.countP Event.isDo = q * n ∧
    w.trace.countP Event.isRoundTrip = q * n ∧
    w.trace.countP Event.isRunEntry = q ∧ w.trace.countP Event.isAverage = q

/-- The process exited through `log.Fatal(msg)` in its call number `a + 1` of
`run`, after `r` requests in all: the trace ends with the failed request, and
it counts `r` calls of `client.Do`, `r` round trips, `a + 1` calls of `run`
and `a` printed averages. -/
def ExitedIn (o : Outcome) (r a : Nat) (msg : String) : Prop :=
  ∃ (w : World) (before : List Event) (tr : HttpTransport) (req : Request) (d : Duration),
    o = .exited w ∧
    w.trace = before ++ [Event.now, Event.clientDo req, Event.roundTrip tr req, Event.since d,
      Event.fatal msg] ∧
    w.roundTrips = r ∧ w.trace.countP Event.isDo = r ∧ w.trace.countP Event.isRoundTrip = r ∧
    w.trace.countP Event.isRunEntry = a + 1 ∧ w.trace.countP Event.isAverage = a

/-- An operation a client performs on its session cache. -/
inductive CacheOp
  | put (sessionKey : String) (cs : Option ClientSessionState)
  | get (sessionKey : String)
deriving DecidableEq, Repr

/-- The LRU cache after one operation. -/
def LRUCache.apply (c : LRUCache) : CacheOp → LRUCache
  | .put sessionKey cs => c.Put sessionKey cs
  | .get sessionKey => (c.Get sessionKey).2

/-! ## Binary64 rounding -/

theorem roundHalfEven_intCast (z : Int) : roundHalfEven (z : ℚ) = z := by
  simp [roundHalfEven]

theorem f64Exponent_intCast (z : Int) (h0 : z ≠ 0) (h : |z| < 2 ^ 53) :
    f64Exponent (z : ℚ) ≤ 0 := by
  unfold f64Exponent
  have hpos : (0 : ℚ) < |(z : ℚ)| := abs_pos.mpr (by exact_mod_cast h0)
  have hlt : |(z : ℚ)| < ((2 : ℕ) : ℚ) ^ (53 : ℤ) := by
    have h1 : ((|z| : ℤ) : ℚ) < ((2 ^ 53 : ℤ) : ℚ) := by exact_mod_cast h
    norm_num at h1 ⊢
    exact h1
  have := (Int.lt_zpow_iff_log_lt (b := 2) (by norm_num) hpos).mp hlt
  omega

theorem f64Round_of_int_div (z : Int) (e : ℤ) (q : ℚ) (he : f64Exponent q = e)
    (hq : q / 2 ^ e = z) (hb : |q| < 2 ^ 1024) : f64Round q = some q := by
  have h2 : (2 : ℚ) ^ e ≠ 0 := zpow_ne_zero _ (by norm_num)
  have hr : (roundHalfEven (q / 2 ^ f64Exponent q) : ℚ) * 2 ^ f64Exponent q = q := by
    rw [he, hq, roundHalfEven_intCast, ← hq]
    field_simp
  unfold f64Round
  rw [hr, if_pos hb]

theorem f64Round_intCast (z : Int) (h : |z| ≤ 2 ^ 53) : f64Round (z : ℚ) = some (z : ℚ) := by
  have hb : |(z : ℚ)| < 2 ^ 1024 := by
    have : ((|z| : ℤ) : ℚ) ≤ ((2 ^ 53 : ℤ) : ℚ) := by exact_mod_cast h
    have h3 : ((2 ^ 53 : ℤ) : ℚ) < 2 ^ 1024 := by norm_num
    simpa using lt_of_le_of_lt this h3
  rcases lt_or_eq_of_le h with hlt | heq
  · by_cases h0 : z = 0
    · subst h0
      refine f64Round_of_int_div 0 _ _ rfl ?_ hb
      simp
    · have hE := f64Exponent_intCast z h0 hlt
      obtain ⟨k, hk⟩ : ∃ k : ℕ, f64Exponent (z : ℚ) = -(k : ℤ) := ⟨(-f64Exponent (z : ℚ)).toNat, by omega⟩
      refine f64Round_of_int_div (z * 2 ^ k) _ _ hk ?_ hb
      rw [zpow_neg, zpow_natCast]
      push_cast
      field_simp
  · have hE : f64Exponent (z : ℚ) = 1 := by
      unfold f64Exponent
      have : |(z : ℚ)| = ((2 : ℕ) : ℚ) ^ (53 : ℤ) := by
        have h1 : ((|z| : ℤ) : ℚ) = ((2 ^ 53 : ℤ) : ℚ) := by exact_mod_cast heq
        norm_num at h1 ⊢
        exact h1
      rw [this, Int.log_zpow (by norm_num)]
      rfl
    rcases abs_eq (by positivity : (0 : ℤ) ≤ 2 ^ 53) |>.mp heq with h1 | h1
    · refine f64Round_of_int_div (2 ^ 52) _ _ hE ?_ hb
      subst h1; norm_num
    · refine f64Round_of_int_div (-2 ^ 52) _ _ hE ?_ hb
      subst h1; norm_num

theorem durationOfFloat64_some (r : ℚ) (k : Int) (h0 : 0 ≤ k) (hk : k < 2 ^ 63)
    (h1 : (k : ℚ) ≤ r) (h2 : r < k + 1) : durationOfFloat64 (some r) = some k := by
  have hr : (0 : ℚ) ≤ r := le_trans (by exact_mod_cast h0) h1
  have hf : ⌊r⌋ = k := Int.floor_eq_iff.mpr ⟨h1, h2⟩
  simp only [durationOfFloat64, Option.some_bind, if_pos hr, hf]
  rw [if_pos ⟨by omega, hk⟩]

theorem int_log_two_eq (q : ℚ) (z : ℤ) (h1 : (2 : ℚ) ^ z ≤ q) (h2 : q < (2 : ℚ) ^ (z + 1)) :
    Int.log 2 q = z := by
  have hpos : 0 < q := lt_of_lt_of_le (by positivity) h1
  have a := (Int.zpow_le_iff_le_log (b := 2) (by norm_num) hpos).mp (by simpa using h1)
  have b := (Int.lt_zpow_iff_log_lt (b := 2) (by norm_num) hpos).mp (by simpa using h2)
  omega

theorem roundHalfEven_of_floor (x : ℚ) (f : ℤ) (hf : ⌊x⌋ = f) :
    roundHalfEven x =
      if x - f < 1 / 2 then f else if 1 / 2 < x - f then f + 1
      else if f % 2 = 0 then f else f + 1 := by
  subst hf; rfl

theorem f64Round_two_pow_53_add_one : f64Round (9007199254740993 : ℚ) = some 9007199254740992 := by
  have hE : f64Exponent (9007199254740993 : ℚ) = 1 := by
    unfold f64Exponent
    rw [abs_of_pos (by norm_num), int_log_two_eq _ 53 (by norm_num) (by norm_num)]
    rfl
  have hf : ⌊(9007199254740993 : ℚ) / 2 ^ (1 : ℤ)⌋ = 4503599627370496 := by
    rw [Int.floor_eq_iff]; norm_num
  have hr : roundHalfEven ((9007199254740993 : ℚ) / 2 ^ (1 : ℤ)) = 4503599627370496 := by
    rw [roundHalfEven_of_floor _ _ hf]; norm_num
  unfold f64Round
  rw [hE, hr]
  norm_num

/-! ## The moving average of the collected durations -/

theorem addAll_ring (n : Nat) (rest : List Duration) :
    ∀ pre : List Float64, rest ≠ [] → pre.length + rest.length = n →
      addAll rest
          { Window := n, values := pre ++ List.replicate rest.length (some 0)
            valPos := pre.length, slotsFilled := false } =
        some { Window := n, values := pre ++ rest.map float64OfInt, valPos := 0
               slotsFilled := true } := by
  induction rest with
  | nil => intro pre h; exact absurd rfl h
  | cons d rest ih =>
    intro pre _ hlen
    simp only [List.length_cons] at hlen
    have hn : n ≠ 0 := by omega
    have hset : (pre ++ List.replicate (rest.length + 1) (some (0 : ℚ))).set pre.length
        (float64OfInt d) = (pre ++ [float64OfInt d]) ++ List.replicate rest.length (some 0) := by
      rw [List.set_append, if_neg (lt_irrefl _), Nat.sub_self, List.replicate_succ, List.set_cons_zero,
        List.append_assoc, List.singleton_append]
    simp only [addAll, MovingAverage.Add, List.length_append, List.length_replicate,
      List.length_cons]
    rw [if_pos ⟨by omega, hn⟩, Option.some_bind, hset]
    by_cases hr : rest = []
    · subst hr
      simp only [List.length_nil, Nat.add_zero] at hlen ⊢
      have : (pre.length + 1) % n = 0 := by rw [hlen]; exact Nat.mod_self n
      simp [addAll, this]
    · have hpos : 0 < rest.length := List.length_pos.mpr hr
      have hmod : (pre.length + 1) % n = pre.length + 1 := Nat.mod_eq_of_lt (by omega)
      have := ih (pre ++ [float64OfInt d]) hr (by simp; omega)
      simp only [List.length_append, List.length_singleton] at this
      rw [hmod]
      simpa using this

theorem addAll_New (samples : List Duration) (h : samples ≠ []) :
    addAll samples (MovingAverage.New samples.length) =
      some { Window := samples.length, values := samples.map float64OfInt, valPos := 0
             slotsFilled := true } := by
  have := addAll_ring samples.length samples [] h (by simp)
  simpa [MovingAverage.New] using this

theorem avg_ring (samples : List Duration) :
    MovingAverage.Avg
        { Window := samples.length, values := samples.map float64OfInt, valPos := 0
          slotsFilled := true } = floatMean samples := by
  simp [MovingAverage.Avg, floatMean, List.take_of_length_le]

theorem float64OfInt_exact (z : Int) (h : |z| ≤ 2 ^ 53) : float64OfInt z = some (z : ℚ) :=
  f64Round_intCast z h

theorem readings_succ (env : Env) (s k : Nat) :
    readings env s (k + 1) = env.since s :: readings env (s + 1) k := by
  simp [readings, List.range_succ_eq_map, Function.comp_def, Nat.succ_eq_add_one,
    Nat.add_comm, Nat.add_left_comm]

theorem loopEvents_succ (env : Env) (tr : HttpTransport) (conf : config) (req : Request)
    (i : Int) (s k : Nat) :
    loopEvents env tr conf req i s (k + 1) =
      iterationEvents tr conf req i (env.since s) ++ loopEvents env tr conf req (i + 1) (s + 1) k := by
  simp only [loopEvents, List.range_succ_eq_map, List.flatMap_cons, List.flatMap_map,
    Nat.cast_zero, add_zero, Nat.succ_eq_add_one, Nat.cast_add, Nat.cast_one]
  congr 1
  apply List.flatMap_congr
  intro j _
  rw [show i + ((j : ℤ) + 1) = i + 1 + (j : ℤ) by ring, show s + (j + 1) = s + 1 + j by omega]

theorem readings_length (env : Env) (s k : Nat) : (readings env s k).length = k := by
  simp [readings]

theorem clientDo_useLast (env : Env) (client : HttpClient)
    (hpol : ∀ req via, client.CheckRedirect req via = some GoError.ErrUseLastResponse)
    (maxHops : Nat) (req : Request) (via : List Request) (w : World) :
    clientDo env client (maxHops + 1) req via w =
      ((match env.roundTrip w.roundTrips with
        | .response res => DoResult.ok res
        | .error msg => DoResult.err msg),
       { roundTrips := w.roundTrips + 1, stopwatch := w.stopwatch
         trace := w.trace ++ [Event.roundTrip client.Transport req] }) := by
  unfold clientDo
  cases h : env.roundTrip w.roundTrips with
  | error msg => rfl
  | response res =>
    cases hr : res.redirect with
    | none => simp [hr]
    | some loc => simp [hr, hpol]

theorem requestLoop_ok (env : Env) (maxHops : Nat) (client : HttpClient) (conf : config)
    (req : Request)
    (hpol : ∀ r via, client.CheckRedirect r via = some GoError.ErrUseLastResponse) :
    ∀ (k : Nat) (i : Int) (durations : List Duration) (w : World),
      (∀ j < k, ∃ res, env.roundTrip (w.roundTrips + j) = .response res) →
      requestLoop env (maxHops + 1) client conf req k i durations w =
        .done (durations ++ readings env w.stopwatch k)
          { roundTrips := w.roundTrips + k, stopwatch := w.stopwatch + k
            trace := w.trace ++ loopEvents env client.Transport conf req i w.stopwatch k } := by
  intro k
  induction k with
  | zero =>
    intro i durations w _
    simp [requestLoop, readings, loopEvents]
  | succ k ih =>
    intro i durations w hok
    obtain ⟨res, hres⟩ := hok 0 (Nat.succ_pos k)
    rw [Nat.add_zero] at hres
    rw [requestLoop, clientDo_useLast env client hpol]
    simp only [World.emit, hres]
    rw [ih]
    · simp only [readings_succ, loopEvents_succ, iterationEvents, List.append_assoc,
        List.singleton_append, List.cons_append, List.nil_append]
      congr 2 <;> omega
    · intro j hj
      have := hok (j + 1) (by omega)
      simpa [Nat.add_assoc, Nat.add_comm 1 j] using this

theorem requestLoop_fail (env : Env) (maxHops : Nat) (client : HttpClient) (conf : config)
    (req : Request) (msg : String) (m : Nat)
    (hpol : ∀ r via, client.CheckRedirect r via = some GoError.ErrUseLastResponse) :
    ∀ (k : Nat) (i : Int) (durations : List Duration) (w : World),
      (∀ j < k, ∃ res, env.roundTrip (w.roundTrips + j) = .response res) →
      env.roundTrip (w.roundTrips + k) = .error msg →
      requestLoop env (maxHops + 1) client conf req (k + 1 + m) i durations w =
        .stopped (.exited
          { roundTrips := w.roundTrips + k + 1, stopwatch := w.stopwatch + k + 1
            trace := w.trace ++ (loopEvents env client.Transport conf req i w.stopwatch k ++
              [Event.now, Event.clientDo req, Event.roundTrip client.Transport req,
               Event.since (env.since (w.stopwatch + k)), Event.fatal msg]) }) := by
  intro k
  induction k with
  | zero =>
    intro i durations w _ herr
    rw [Nat.add_zero] at herr
    rw [show 0 + 1 + m = m + 1 by omega, requestLoop, clientDo_useLast env client hpol]
    simp [World.emit, herr, loopEvents]
  | succ k ih =>
    intro i durations w hok herr
    obtain ⟨res, hres⟩ := hok 0 (Nat.succ_pos k)
    rw [Nat.add_zero] at hres
    rw [show k + 1 + 1 + m = (k + 1 + m) + 1 by omega, requestLoop,
      clientDo_useLast env client hpol]
    simp only [World.emit, hres]
    rw [ih]
    · simp only [loopEvents_succ, iterationEvents, List.append_assoc,
        List.singleton_append, List.cons_append, List.nil_append]
      congr 3
      · omega
      · omega
      · congr 6
        simp [Nat.add_assoc, Nat.add_comm 1 k]
    · intro j hj
      have := hok (j + 1) (by omega)
      simpa [Nat.add_assoc, Nat.add_comm 1 j] using this
    · simpa [Nat.add_assoc, Nat.add_comm 1 k] using herr

/-! ## One call of `run` -/

theorem durationOfFloat64_zero : durationOfFloat64 (some 0) = some 0 :=
  durationOfFloat64_some 0 0 le_rfl (by norm_num) (by norm_num) (by norm_num)

theorem report_eq (samples : List Duration) (w : World) :
    (match addAll samples (MovingAverage.New samples.length) with
      | none => Outcome.panicked w
      | some ma => Outcome.returned (w.emit (.printlnAvg (durationOfFloat64 ma.Avg)))) =
      Outcome.returned (w.emit (.printlnAvg (reportedAverage samples))) := by
  by_cases h : samples = []
  · subst h
    simp [addAll, MovingAverage.New, MovingAverage.Avg, reportedAverage, durationOfFloat64_zero]
  · rw [addAll_New samples h]
    simp only [avg_ring, reportedAverage, if_neg h]

theorem run_ok (env : Env) (maxHops : Nat) (client : HttpClient) (conf : config)
    (suffix : String) (w : World)
    (hpol : ∀ r via, client.CheckRedirect r via = some GoError.ErrUseLastResponse)
    (hurl : env.parseURL (conf.protocol ++ "://" ++ conf.host) = true)
    (hok : ∀ j < conf.requests.toNat, ∃ res, env.roundTrip (w.roundTrips + j) = .response res) :
    run env (maxHops + 1) client conf suffix w =
      .returned
        { roundTrips := w.roundTrips + conf.requests.toNat
          stopwatch := w.stopwatch + conf.requests.toNat
          trace := w.trace ++
            runEvents env client.Transport conf suffix w.stopwatch conf.requests.toNat } := by
  unfold run
  rw [if_pos hurl, requestLoop_ok env maxHops client conf _ hpol _ _ _ (w.emit (.debugConfig conf)) hok]
  simp only [List.nil_append, report_eq]
  simp [World.emit, runEvents]

theorem run_fail (env : Env) (maxHops : Nat) (client : HttpClient) (conf : config)
    (suffix : String) (w : World) (k m : Nat) (msg : String)
    (hpol : ∀ r via, client.CheckRedirect r via = some GoError.ErrUseLastResponse)
    (hurl : env.parseURL (conf.protocol ++ "://" ++ conf.host) = true)
    (hn : conf.requests.toNat = k + 1 + m)
    (hok : ∀ j < k, ∃ res, env.roundTrip (w.roundTrips + j) = .response res)
    (herr : env.roundTrip (w.roundTrips + k) = .error msg) :
    run env (maxHops + 1) client conf suffix w =
      .exited
        { roundTrips := w.roundTrips + k + 1
          stopwatch := w.stopwatch + k + 1
          trace := w.trace ++ failedRunEvents env client.Transport conf suffix w.stopwatch k msg } := by
  unfold run
  rw [if_pos hurl, hn, requestLoop_fail env maxHops client conf _ msg m hpol _ _ _ (w.emit (.debugConfig conf)) hok herr]
  simp [World.emit, failedRunEvents]

/-! ## The whole program -/

theorem main_ok (env : Env) (maxHops : Nat) (host : String) (requests : Int) (loglevel : String)
    (sleep : Duration) (w : World) (level : Nat)
    (hlevel : env.parseLevel loglevel = some level)
    (hhttp : env.parseURL ("http" ++ "://" ++ host) = true)
    (hhttps : env.parseURL ("https" ++ "://" ++ host) = true)
    (hok : ∀ j < 6 * requests.toNat, ∃ res, env.roundTrip (w.roundTrips + j) = .response res) :
    main env (maxHops + 1) host requests loglevel sleep w =
      .returned
        { roundTrips := w.roundTrips + 6 * requests.toNat
          stopwatch := w.stopwatch + 6 * requests.toNat
          trace := w.trace ++ Event.setLevel level ::
            mainEvents env host requests sleep w.stopwatch requests.toNat } := by
  unfold main
  rw [hlevel]
  simp only [run_default, run_no_keepalive, run_no_session_resume,
    run_no_session_resume_and_no_keepalive]
  rw [run_ok env maxHops run_default.client _ _ _ (fun _ _ => rfl) hhttp
    (fun j hj => by simpa [World.emit] using hok j (by simp only at hj; omega))]
  simp only [Outcome.andThen]
  rw [run_ok env maxHops run_no_keepalive.client _ _ _ (fun _ _ => rfl) hhttp
    (fun j hj => by
      simpa [World.emit, Nat.add_assoc] using hok (requests.toNat + j) (by simp only at hj; omega))]
  simp only [Outcome.andThen]
  rw [run_ok env maxHops run_default.client _ _ _ (fun _ _ => rfl) hhttps
    (fun j hj => by
      simpa [World.emit, Nat.add_assoc] using
        hok (requests.toNat + (requests.toNat + j)) (by simp only at hj; omega))]
  simp only [Outcome.andThen]
  rw [run_ok env maxHops run_no_keepalive.client _ _ _ (fun _ _ => rfl) hhttps
    (fun j hj => by
      simpa [World.emit, Nat.add_assoc] using
        hok (requests.toNat + (requests.toNat + (requests.toNat + j)))
          (by simp only at hj; omega))]
  simp only [Outcome.andThen]
  rw [run_ok env maxHops run_no_session_resume.client _ _ _ (fun _ _ => rfl) hhttps
    (fun j hj => by
      simpa [World.emit, Nat.add_assoc] using
        hok (requests.toNat + (requests.toNat + (requests.toNat + (requests.toNat + j))))
          (by simp only at hj; omega))]
  simp only [Outcome.andThen]
  rw [run_ok env maxHops run_no_session_resume_and_no_keepalive.client _ _ _ (fun _ _ => rfl) hhttps
    (fun j hj => by
      simpa [World.emit, Nat.add_assoc] using
        hok (requests.toNat + (requests.toNat + (requests.toNat + (requests.toNat +
          (requests.toNat + j))))) (by simp only at hj; omega))]
  simp only [World.emit, mainEvents, confOf, run_default.client, run_no_keepalive.client,
    run_no_session_resume.client, run_no_session_resume_and_no_keepalive.client,
    List.append_assoc, List.cons_append, List.nil_append, Outcome.returned.injEq,
    World.mk.injEq]
  refine ⟨by omega, by omega, ?_⟩
  simp only [Nat.add_assoc]

/-! ## Counting effects -/

theorem loopEvents_countP (env : Env) (tr : HttpTransport) (conf : config) (req : Request)
    (P : Event → Bool) (c : Nat)
    (hc : ∀ i d, (iterationEvents tr conf req i d).countP P = c) :
    ∀ (k : Nat) (i : Int) (s : Nat), (loopEvents env tr conf req i s k).countP P = k * c := by
  intro k
  induction k with
  | zero => intro i s; simp [loopEvents]
  | succ k ih =>
    intro i s
    rw [loopEvents_succ, List.countP_append, hc, ih, Nat.succ_mul, Nat.add_comm]

theorem loopEvents_filter (env : Env) (tr : HttpTransport) (conf : config) (req : Request)
    (P : Event → Bool) :
    ∀ (k : Nat) (i : Int) (s : Nat),
      (loopEvents env tr conf req i s k).filter P =
        (List.range k).flatMap fun j =>
          (iterationEvents tr conf req (i + j) (env.since (s + j))).filter P := by
  intro k i s
  simp only [loopEvents]
  induction List.range k with
  | nil => rfl
  | cons a l ih => simp only [List.flatMap_cons, List.filter_append, ih]

theorem runEvents_count (env : Env) (tr : HttpTransport) (conf : config) (suffix : String)
    (s n : Nat) :
    (runEvents env tr conf suffix s n).countP Event.isRunEntry = 1 ∧
    (runEvents env tr conf suffix s n).countP Event.isAverage = 1 ∧
    (runEvents env tr conf suffix s n).countP Event.isRoundTrip = n ∧
    (runEvents env tr conf suffix s n).countP Event.isDo = n := by
  simp only [runEvents, List.countP_cons, List.countP_append, List.countP_nil]
  rw [loopEvents_countP env tr conf _ Event.isRunEntry 0 (fun _ _ => rfl),
    loopEvents_countP env tr conf _ Event.isAverage 0 (fun _ _ => rfl),
    loopEvents_countP env tr conf _ Event.isRoundTrip 1 (fun _ _ => rfl),
    loopEvents_countP env tr conf _ Event.isDo 1 (fun _ _ => rfl)]
  simp [Event.isRunEntry, Event.isAverage, Event.isRoundTrip, Event.isDo]

theorem failedRunEvents_count (env : Env) (tr : HttpTransport) (conf : config)
    (suffix : String) (s k : Nat) (msg : String) :
    (failedRunEvents env tr conf suffix s k msg).countP Event.isRunEntry = 1 ∧
    (failedRunEvents env tr conf suffix s k msg).countP Event.isAverage = 0 ∧
    (failedRunEvents env tr conf suffix s k msg).countP Event.isRoundTrip = k + 1 ∧
    (failedRunEvents env tr conf suffix s k msg).countP Event.isDo = k + 1 := by
  simp only [failedRunEvents, List.countP_cons, List.countP_append, List.countP_nil]
  rw [loopEvents_countP env tr conf _ Event.isRunEntry 0 (fun _ _ => rfl),
    loopEvents_countP env tr conf _ Event.isAverage 0 (fun _ _ => rfl),
    loopEvents_countP env tr conf _ Event.isRoundTrip 1 (fun _ _ => rfl),
    loopEvents_countP env tr conf _ Event.isDo 1 (fun _ _ => rfl)]
  simp [Event.isRunEntry, Event.isAverage, Event.isRoundTrip, Event.isDo]

theorem failedRunEvents_tail (env : Env) (tr : HttpTransport) (conf : config)
    (suffix : String) (s k : Nat) (msg : String) (pre : List Event) :
    pre ++ failedRunEvents env tr conf suffix s k msg =
      (pre ++ Event.debugConfig conf :: loopEvents env tr conf (requestOf conf suffix) 0 s k) ++
        [Event.now, Event.clientDo (requestOf conf suffix),
         Event.roundTrip tr (requestOf conf suffix), Event.since (env.since (s + k)),
         Event.fatal msg] := by
  simp [failedRunEvents]

/-! ## A failing request ends the program -/

theorem run_step (env : Env) (maxHops : Nat) (client : HttpClient) (conf : config)
    (suffix : String) (w : World) (p k q : Nat) (msg : String)
    (hpol : ∀ r via, client.CheckRedirect r via = some GoError.ErrUseLastResponse)
    (hurl : env.parseURL (conf.protocol ++ "://" ++ conf.host) = true)
    (hk : k < conf.requests.toNat)
    (hok : ∀ j < p * conf.requests.toNat + k, ∃ res, env.roundTrip j = .response res)
    (herr : env.roundTrip (p * conf.requests.toNat + k) = .error msg)
    (hq : q ≤ p) (hr : w.roundTrips = q * conf.requests.toNat) :
    (q < p ∧ run env (maxHops + 1) client conf suffix w =
      .returned
        { roundTrips := (q + 1) * conf.requests.toNat
          stopwatch := w.stopwatch + conf.requests.toNat
          trace := w.trace ++
            runEvents env client.Transport conf suffix w.stopwatch conf.requests.toNat }) ∨
    (q = p ∧ run env (maxHops + 1) client conf suffix w =
      .exited
        { roundTrips := p * conf.requests.toNat + k + 1
          stopwatch := w.stopwatch + k + 1
          trace := w.trace ++ failedRunEvents env client.Transport conf suffix w.stopwatch k msg }) := by
  rcases Nat.lt_or_ge q p with hlt | hge
  · left
    refine ⟨hlt, ?_⟩
    have h1 : (q + 1) * conf.requests.toNat ≤ p * conf.requests.toNat :=
      Nat.mul_le_mul_right _ hlt
    have h2 : (q + 1) * conf.requests.toNat = q * conf.requests.toNat + conf.requests.toNat :=
      Nat.succ_mul _ _
    rw [run_ok env maxHops client conf suffix w hpol hurl
      (fun j hj => hok _ (by rw [hr]; omega)), hr, h2]
  · right
    have hqp : q = p := le_antisymm hq hge
    subst hqp
    refine ⟨rfl, ?_⟩
    obtain ⟨m, hm⟩ : ∃ m, conf.requests.toNat = k + 1 + m :=
      ⟨conf.requests.toNat - (k + 1), by omega⟩
    rw [run_fail env maxHops client conf suffix w k m msg hpol hurl hm
      (fun j hj => hok _ (by rw [hr]; omega)) (by rw [hr]; exact herr), hr]

theorem exitedIn_andThen (o : Outcome) (f : World → Outcome) (r a : Nat) (msg : String)
    (h : ExitedIn o r a msg) : ExitedIn (o.andThen f) r a msg := by
  obtain ⟨w, before, tr, req, d, rfl, h⟩ := h
  exact ⟨w, before, tr, req, d, rfl, h⟩

theorem between_println (n : Nat) (w : World) (q : Nat) (s : String) (h : Between n w q) :
    Between n (w.emit (.println s)) q := by
  obtain ⟨h1, h2, h3, h4, h5⟩ := h
  refine ⟨h1, ?_, ?_, ?_, ?_⟩ <;>
    simp [World.emit, List.countP_append, Event.isRoundTrip, Event.isRunEntry, Event.isAverage,
      Event.isDo, *]

theorem profile_step (env : Env) (maxHops : Nat) (client : HttpClient) (conf : config)
    (suffix : String) (w : World) (p k q : Nat) (msg : String)
    (hpol : ∀ r via, client.CheckRedirect r via = some GoError.ErrUseLastResponse)
    (hurl : env.parseURL (conf.protocol ++ "://" ++ conf.host) = true)
    (hk : k < conf.requests.toNat)
    (hok : ∀ j < p * conf.requests.toNat + k, ∃ res, env.roundTrip j = .response res)
    (herr : env.roundTrip (p * conf.requests.toNat + k) = .error msg)
    (hq : q ≤ p) (hw : Between conf.requests.toNat w q) :
    (q < p ∧ ∃ w1, run env (maxHops + 1) client conf suffix w = .returned w1 ∧
      Between conf.requests.toNat w1 (q + 1)) ∨
    ExitedIn (run env (maxHops + 1) client conf suffix w) (p * conf.requests.toNat + k + 1) p
      msg := by
  obtain ⟨h1, h2, h3, h4, h5⟩ := hw
  have hc := runEvents_count env client.Transport conf suffix w.stopwatch conf.requests.toNat
  have hf := failedRunEvents_count env client.Transport conf suffix w.stopwatch k msg
  rcases run_step env maxHops client conf suffix w p k q msg hpol hurl hk hok herr hq h1 with
    ⟨hlt, e⟩ | ⟨heq, e⟩
  · left
    refine ⟨hlt, _, e, rfl, ?_, ?_, ?_, ?_⟩
    · simp only [List.countP_append, h2, hc.2.2.2, Nat.succ_mul]
    · simp only [List.countP_append, h3, hc.2.2.1, Nat.succ_mul]
    · simp only [List.countP_append, h4, hc.1]
    · simp only [List.countP_append, h5, hc.2.1]
  · right
    subst heq
    refine ⟨_, _, _, _, _, e, failedRunEvents_tail _ _ _ _ _ _ _ _, rfl, ?_, ?_, ?_, ?_⟩
    · simp only [List.countP_append, h2, hf.2.2.2]; omega
    · simp only [List.countP_append, h3, hf.2.2.1]; omega
    · simp only [List.countP_append, h4, hf.1]
    · simp only [List.countP_append, h5, hf.2.1]; omega

theorem main_fail (env : Env) (maxHops : Nat) (host : String) (requests : Int)
    (loglevel : String) (sleep : Duration) (level : Nat) (p k : Nat) (msg : String)
    (hlevel : env.parseLevel loglevel = some level)
    (hhttp : env.parseURL ("http" ++ "://" ++ host) = true)
    (hhttps : 2 ≤ p → env.parseURL ("https" ++ "://" ++ host) = true)
    (hp : p < 6) (hk : k < requests.toNat)
    (hok : ∀ j < p * requests.toNat + k, ∃ res, env.roundTrip j = .response res)
    (herr : env.roundTrip (p * requests.toNat + k) = .error msg) :
    ExitedIn (main env (maxHops + 1) host requests loglevel sleep World.init)
      (p * requests.toNat + k + 1) p msg := by
  unfold main
  rw [hlevel]
  simp only [run_default, run_no_keepalive, run_no_session_resume,
    run_no_session_resume_and_no_keepalive]
  have b0 : Between requests.toNat
      ((World.init.emit (.setLevel level)).emit (.println "http")) 0 := by
    simp [Between, World.init, World.emit, Event.isRoundTrip, Event.isRunEntry, Event.isAverage,
      Event.isDo]
  rcases profile_step env maxHops run_default.client
      { host := host, requests := requests, sleep := sleep, protocol := "http" } "run_default" _
      p k 0 msg (fun _ _ => rfl) hhttp hk hok herr (Nat.zero_le p)
      (between_println _ _ _ "default" b0) with ⟨_, w1, e1, b1⟩ | hx
  swap
  · exact exitedIn_andThen _ _ _ _ _ hx
  rw [e1]
  simp only [Outcome.andThen]
  rcases profile_step env maxHops run_no_keepalive.client
      { host := host, requests := requests, sleep := sleep, protocol := "http" }
      "run_no_keepalive" _ p k 1 msg (fun _ _ => rfl) hhttp hk hok herr (by omega)
      (between_println _ _ _ "no keepalive" b1) with ⟨_, w2, e2, b2⟩ | hx
  swap
  · exact exitedIn_andThen _ _ _ _ _ hx
  rw [e2]
  simp only [Outcome.andThen]
  rcases profile_step env maxHops run_default.client
      { host := host, requests := requests, sleep := sleep, protocol := "https" } "run_default" _
      p k 2 msg (fun _ _ => rfl) (hhttps (by omega)) hk hok herr (by omega)
      (between_println _ _ _ "default" (between_println _ _ _ "https" b2)) with
    ⟨_, w3, e3, b3⟩ | hx
  swap
  · exact exitedIn_andThen _ _ _ _ _ hx
  rw [e3]
  simp only [Outcome.andThen]
  rcases profile_step env maxHops run_no_keepalive.client
      { host := host, requests := requests, sleep := sleep, protocol := "https" }
      "run_no_keepalive" _ p k 3 msg (fun _ _ => rfl) (hhttps (by omega)) hk hok herr (by omega)
      (between_println _ _ _ "no keepalive" b3) with ⟨_, w4, e4, b4⟩ | hx
  swap
  · exact exitedIn_andThen _ _ _ _ _ hx
  rw [e4]
  simp only [Outcome.andThen]
  rcases profile_step env maxHops run_no_session_resume.client
      { host := host, requests := requests, sleep := sleep, protocol := "https" }
      "run_no_session_resume" _ p k 4 msg (fun _ _ => rfl) (hhttps (by omega)) hk hok herr (by omega)
      (between_println _ _ _ "no session resume" b4) with ⟨_, w5, e5, b5⟩ | hx
  swap
  · exact exitedIn_andThen _ _ _ _ _ hx
  rw [e5]
  simp only [Outcome.andThen]
  rcases profile_step env maxHops run_no_session_resume_and_no_keepalive.client
      { host := host, requests := requests, sleep := sleep, protocol := "https" }
      "run_no_session_resume_and_no_keepalive" _ p k 5 msg (fun _ _ => rfl) (hhttps (by omega)) hk hok herr
      (by omega)
      (between_println _ _ _ "no session resume and no keepalive" b5) with ⟨h6, _⟩ | hx
  · omega
  · exact hx

/-! ## Session caches -/

theorem lru_small_cases (c : LRUCache) (h : c.entries.length ≤ 1) :
    c.entries = [] ∨ ∃ e, c.entries = [e] := by
  match hc : c.entries with
  | [] => exact Or.inl rfl
  | [e] => exact Or.inr ⟨e, rfl⟩
  | _ :: _ :: _ => rw [hc] at h; simp at h

theorem lru_put_single (c : LRUCache) (hcap : c.capacity = 1) (hlen : c.entries.length ≤ 1)
    (k : String) (cs : Option ClientSessionState) :
    c.Put k cs = { capacity := 1, entries := [(k, cs)] } := by
  rcases lru_small_cases c hlen with h | ⟨e, h⟩
  · simp [LRUCache.Put, h, hcap]
  · by_cases hk : e.1 = k
    · simp [LRUCache.Put, h, hcap, hk]
    · simp [LRUCache.Put, h, hcap, hk]

theorem lru_get_single (c : LRUCache) (hcap : c.capacity = 1) (hlen : c.entries.length ≤ 1)
    (k : String) : (c.Get k).2 = c := by
  rcases lru_small_cases c hlen with h | ⟨e, h⟩
  · simp [LRUCache.Get, h]
  · by_cases hk : e.1 = k
    · cases c
      simp_all [LRUCache.Get]
    · simp [LRUCache.Get, h, hk]

theorem lru_reachable (ops : List CacheOp) :
    (ops.foldl LRUCache.apply (NewLRUClientSessionCache 1)).capacity = 1 ∧
      (ops.foldl LRUCache.apply (NewLRUClientSessionCache 1)).entries.length ≤ 1 := by
  suffices h : ∀ c : LRUCache, c.capacity = 1 ∧ c.entries.length ≤ 1 →
      (ops.foldl LRUCache.apply c).capacity = 1 ∧ (ops.foldl LRUCache.apply c).entries.length ≤ 1 by
    exact h _ ⟨by simp [NewLRUClientSessionCache], by simp [NewLRUClientSessionCache]⟩
  induction ops with
  | nil => intro c h; exact h
  | cons op ops ih =>
    intro c ⟨h1, h2⟩
    rw [List.foldl_cons]
    apply ih
    cases op with
    | put k cs => simp [LRUCache.apply, lru_put_single c h1 h2]
    | get k => simp [LRUCache.apply, lru_get_single c h1 h2, h1, h2]

/-! ## Averages of particular samples -/

theorem durationOfFloat64_intCast (d : Int) (h1 : -2 ^ 63 ≤ d) (h2 : d < 2 ^ 63) :
    durationOfFloat64 (some (d : ℚ)) = some d := by
  simp only [durationOfFloat64, Option.some_bind, Int.floor_intCast, Int.ceil_intCast, ite_self]
  rw [if_pos ⟨h1, h2⟩]

theorem floatMean_singleton (d : Int) :
    floatMean [d] = (float64OfInt d).bind fun x => (f64Round x).bind f64Round := by
  have h1 : float64OfInt ((1 : ℕ) : ℤ) = some 1 := by
    have := float64OfInt_exact 1 (by norm_num)
    simpa using this
  simp only [floatMean, List.map_cons, List.map_nil, List.foldl_cons, List.foldl_nil,
    List.length_singleton, h1]
  cases hd : float64OfInt d with
  | none => simp [f64Add, f64Div]
  | some x =>
    simp only [f64Add, Option.some_bind, zero_add]
    cases hx : f64Round x with
    | none => simp [f64Div]
    | some y => simp [f64Div]

theorem reportedAverage_singleton (d : Int) (hrep : float64OfInt d = some (d : ℚ))
    (h1 : -2 ^ 63 ≤ d) (h2 : d < 2 ^ 63) : reportedAverage [d] = some d := by
  have hr : f64Round (d : ℚ) = some (d : ℚ) := hrep
  simp only [reportedAverage, List.cons_ne_nil, if_false, floatMean_singleton, hrep,
    Option.some_bind, hr]
  exact durationOfFloat64_intCast d h1 h2

theorem reportedAverage_cons (d : Int) (rest : List Int) :
    reportedAverage (d :: rest) = durationOfFloat64 (floatMean (d :: rest)) := by
  simp only [reportedAverage, List.cons_ne_nil, if_false]

theorem f64Round_ofNat_small (n : ℕ) (h : n ≤ 2 ^ 53) : f64Round (n : ℚ) = some (n : ℚ) := by
  have := f64Round_intCast (n : ℤ) (by rw [abs_of_nonneg (by omega)]; exact_mod_cast h)
  simpa using this

theorem reportedAverage_two_pow_53_add_one :
    reportedAverage [9007199254740993] = some 9007199254740992 := by
  have hd : float64OfInt 9007199254740993 = some 9007199254740992 := by
    have := f64Round_two_pow_53_add_one
    simpa [float64OfInt] using this
  have hr : f64Round (9007199254740992 : ℚ) = some 9007199254740992 := by
    have := f64Round_ofNat_small 9007199254740992 (by norm_num)
    simpa using this
  have hc : durationOfFloat64 (some (9007199254740992 : ℚ)) = some 9007199254740992 := by
    have := durationOfFloat64_intCast 9007199254740992 (by norm_num) (by norm_num)
    simpa using this
  rw [reportedAverage_cons, floatMean_singleton, hd, Option.some_bind, hr, Option.some_bind, hr,
    hc]

/-! ## The claims -/

/-- C2, as stated, fails: a single request measured at 2^53 + 1 ns (an `int64`
value) is reported as 2^53 ns, because 2^53 + 1 is not a `float64`. -/
theorem single_sample_not_reported_exactly :
    run (Env.answering [9007199254740993]) 1 run_default.client
        (confOf "example.test" 1 0 "http") "run_default" World.init =
      .returned
        { roundTrips := 1, stopwatch := 1
          trace := Event.debugConfig (confOf "example.test" 1 0 "http") ::
            (iterationEvents run_default.tr (confOf "example.test" 1 0 "http")
                (requestOf (confOf "example.test" 1 0 "http") "run_default") 0
                9007199254740993 ++
              [Event.printlnAvg (some 9007199254740992)]) } ∧
    (-2 ^ 63 ≤ (9007199254740993 : ℤ) ∧ (9007199254740993 : ℤ) < 2 ^ 63) ∧
    (9007199254740992 : ℤ) ≠ 9007199254740993 := by
  have hr : readings (Env.answering [9007199254740993]) 0 1 = [9007199254740993] := by
    decide
  have hl : loopEvents (Env.answering [9007199254740993]) run_default.tr
      (confOf "example.test" 1 0 "http")
      (requestOf (confOf "example.test" 1 0 "http") "run_default") 0 0 1 =
      iterationEvents run_default.tr (confOf "example.test" 1 0 "http")
        (requestOf (confOf "example.test" 1 0 "http") "run_default") 0 9007199254740993 := by
    decide
  refine ⟨?_, by norm_num, by norm_num⟩
  rw [run_ok (Env.answering [9007199254740993]) 0 run_default.client
    (confOf "example.test" 1 0 "http") "run_default" World.init (fun _ _ => rfl) (by decide)
    (fun _ _ => ⟨_, rfl⟩)]
  have hn : (confOf "example.test" 1 0 "http").requests.toNat = 1 := by decide
  rw [hn]
  simp only [World.init, runEvents, List.nil_append, Nat.zero_add, run_default.client, hr, hl,
    reportedAverage_two_pow_53_add_one]

/-- C2 (amended): for request count n = 1 and every measured duration d (an
`int64` count of nanoseconds; a request was measured, so its URL parsed) that
`float64` represents exactly, the average
reported by `run` equals d exactly: converting d to `float64`, averaging over
a window of size 1 and converting back to a duration returns d unchanged.
Every d of magnitude at most 2^53 ns is such a duration. -/
theorem single_sample_reported_exactly (env : Env) (maxHops : Nat) (client : HttpClient)
    (conf : config) (suffix : String) (w : World) (d : Duration)
    (hpol : ∀ r via, client.CheckRedirect r via = some GoError.ErrUseLastResponse)
    (hurl : env.parseURL (conf.protocol ++ "://" ++ conf.host) = true)
    (hn : conf.requests = 1)
    (hok : ∃ res, env.roundTrip w.roundTrips = .response res)
    (hd : env.since w.stopwatch = d) (hmin : -2 ^ 63 ≤ d) (hmax : d < 2 ^ 63)
    (hrep : float64OfInt d = some (d : ℚ)) :
    run env (maxHops + 1) client conf suffix w =
      .returned
        { roundTrips := w.roundTrips + 1, stopwatch := w.stopwatch + 1
          trace := w.trace ++ Event.debugConfig conf ::
            (iterationEvents client.Transport conf (requestOf conf suffix) 0 d ++
              [Event.printlnAvg (some d)]) } ∧
    (∀ z : Int, |z| ≤ 2 ^ 53 → float64OfInt z = some (z : ℚ)) := by
  refine ⟨?_, float64OfInt_exact⟩
  have hnat : conf.requests.toNat = 1 := by rw [hn]; rfl
  rw [run_ok env maxHops client conf suffix w hpol hurl
    (fun j hj => by
      rw [hnat] at hj
      obtain rfl : j = 0 := by omega
      simpa using hok), hnat]
  have hr : readings env w.stopwatch 1 = [d] := by
    rw [readings_succ, hd]; simp [readings]
  have hl : loopEvents env client.Transport conf (requestOf conf suffix) 0 w.stopwatch 1 =
      iterationEvents client.Transport conf (requestOf conf suffix) 0 d := by
    rw [loopEvents_succ, hd]; simp [loopEvents]
  simp only [runEvents, hr, hl, reportedAverage_singleton d hrep hmin hmax]

/-- C2 (amended), at a concrete run: one request answered after 10ms is
reported as 10ms. -/
theorem single_sample_10ms :
    run (Env.answering [10000000]) 1 run_default.client (confOf "example.test" 1 0 "http")
        "run_default" World.init =
      .returned
        { roundTrips := 1, stopwatch := 1
          trace := Event.debugConfig (confOf "example.test" 1 0 "http") ::
            (iterationEvents run_default.tr (confOf "example.test" 1 0 "http")
                (requestOf (confOf "example.test" 1 0 "http") "run_default") 0 10000000 ++
              [Event.printlnAvg (some 10000000)]) } := by
  have h := single_sample_reported_exactly (Env.answering [10000000]) 0 run_default.client
    (confOf "example.test" 1 0 "http") "run_default" World.init 10000000 (fun _ _ => rfl)
    (by decide) rfl ⟨_, rfl⟩ rfl (by decide) (by decide) (float64OfInt_exact 10000000 (by decide))
  rw [h.1]
  simp only [World.init, List.nil_append, Nat.zero_add, run_default.client]

/-- C3: for the null session cache `noCache`, after any sequence of earlier
`Put` calls (`Put(k, v)` included) `Get(k)` reports not found, and a `Put`
never changes what a later `Get` returns. -/
theorem noCache_get_reports_not_found (c : noCache)
    (puts : List (String × Option ClientSessionState)) (k : String)
    (v : Option ClientSessionState) :
    ((puts.foldl (fun c kv => c.Put kv.1 kv.2) c).Get k).2 = false ∧
    (((puts.foldl (fun c kv => c.Put kv.1 kv.2) c).Put k v).Get k).2 = false ∧
    c.Put k v = c ∧
    (∀ k1 : String, ((c.Put k v).Get k1) = c.Get k1) ∧
    (∀ k1 : String, (puts.foldl (fun c kv => c.Put kv.1 kv.2) c).Get k1 = c.Get k1) :=
  ⟨rfl, rfl, rfl, fun _ => rfl, fun _ => rfl⟩

/-- C8: the session cache of the resumption-enabled profiles is an LRU cache
created with capacity 1, and such a cache, whatever was done with it before,
retains only the entry put last: for distinct keys a and b, after put(a) then
put(b), get(a) reports not found and get(b) reports found with the value put
for b. -/
theorem lru_single_slot_keeps_last_put (ops : List CacheOp) (a b : String)
    (va vb : Option ClientSessionState) (hab : a ≠ b) :
    run_default.tr.TLSClientConfig.ClientSessionCache =
      some (.lru (NewLRUClientSessionCache 1)) ∧
    run_no_keepalive.tr.TLSClientConfig.ClientSessionCache =
      some (.lru (NewLRUClientSessionCache 1)) ∧
    (NewLRUClientSessionCache 1).capacity = 1 ∧
    ((((ops.foldl LRUCache.apply (NewLRUClientSessionCache 1)).Put a va).Put b vb).Get a).1 =
      (none, false) ∧
    ((((ops.foldl LRUCache.apply (NewLRUClientSessionCache 1)).Put a va).Put b vb).Get b).1 =
      (vb, true) := by
  obtain ⟨h1, h2⟩ := lru_reachable ops
  refine ⟨rfl, rfl, by simp [NewLRUClientSessionCache], ?_, ?_⟩
  · rw [lru_put_single _ h1 h2, lru_put_single _ rfl (by simp)]
    simp [LRUCache.Get, Ne.symm hab]
  · rw [lru_put_single _ h1 h2, lru_put_single _ rfl (by simp)]
    simp [LRUCache.Get]

/-- C8, at a concrete cache: after a session for `a.test` and then one for
`b.test` were put into a fresh single-slot cache, only `b.test` is found. -/
theorem lru_single_slot_example :
    ((((NewLRUClientSessionCache 1).Put "a.test" (some { sessionTicket := [1] })).Put "b.test"
      (some { sessionTicket := [2] })).Get "a.test").1 = (none, false) ∧
    ((((NewLRUClientSessionCache 1).Put "a.test" (some { sessionTicket := [1] })).Put "b.test"
      (some { sessionTicket := [2] })).Get "b.test").1 = (some { sessionTicket := [2] }, true) :=
  (lru_single_slot_keeps_last_put [] "a.test" "b.test" (some { sessionTicket := [1] })
    (some { sessionTicket := [2] }) (by decide)).2.2.2

/-- C10, as stated, fails: with `requests = 0` and the host `exa mple.test`,
whose URL `http.NewRequest` cannot parse, `run` issues no request and does not
end through `log.Fatal`, but it does not go on to print an average either: it
ends in a run-time panic right after logging the configuration. -/
theorem run_without_requests_panics_on_unparsable_host :
    (confOf "exa mple.test" 0 0 "http").requests ≤ 0 ∧
    (Env.answering []).parseURL ("http" ++ "://" ++ "exa mple.test") = false ∧
    run (Env.answering []) 1 run_default.client (confOf "exa mple.test" 0 0 "http")
        "run_default" World.init =
      .panicked
        { roundTrips := 0, stopwatch := 0
          trace := [Event.debugConfig (confOf "exa mple.test" 0 0 "http")] } := by
  decide

/-- C10 (amended): the request count is not validated: for every configuration
with `requests <= 0` whose URL `http.NewRequest` can parse, `run` issues no
request, performs no sleep and collects no sample, does not end through
`log.Fatal`, and still computes and prints an average, from a reducer of
window size 0 to which nothing was added (that average is 0); `main` passes
the count on unchanged, so all six profiles do so. -/
theorem run_without_requests (env : Env) (maxHops : Nat) (client : HttpClient) (conf : config)
    (suffix : String) (w : World) (h : conf.requests ≤ 0)
    (hurl : env.parseURL (conf.protocol ++ "://" ++ conf.host) = true) :
    requestLoop env maxHops client conf (requestOf conf suffix) conf.requests.toNat 0 []
        (w.emit (.debugConfig conf)) = .done [] (w.emit (.debugConfig conf)) ∧
    addAll [] (MovingAverage.New ([] : List Duration).length) = some (MovingAverage.New 0) ∧
    (MovingAverage.New 0).Window = 0 ∧
    run env maxHops client conf suffix w =
      .returned
        { roundTrips := w.roundTrips, stopwatch := w.stopwatch
          trace := w.trace ++ [Event.debugConfig conf, Event.printlnAvg (some 0)] } ∧
    (∀ (host loglevel : String) (sleep : Duration) (level : Nat),
      env.parseLevel loglevel = some level →
      env.parseURL ("http" ++ "://" ++ host) = true →
      env.parseURL ("https" ++ "://" ++ host) = true →
      main env (maxHops + 1) host conf.requests loglevel sleep World.init =
        .returned
          { roundTrips := 0, stopwatch := 0
            trace :=
              [Event.setLevel level, Event.println "http",
               Event.println "default",
               Event.debugConfig (confOf host conf.requests sleep "http"),
               Event.printlnAvg (some 0),
               Event.println "no keepalive",
               Event.debugConfig (confOf host conf.requests sleep "http"),
               Event.printlnAvg (some 0),
               Event.println "https",
               Event.println "default",
               Event.debugConfig (confOf host conf.requests sleep "https"),
               Event.printlnAvg (some 0),
               Event.println "no keepalive",
               Event.debugConfig (confOf host conf.requests sleep "https"),
               Event.printlnAvg (some 0),
               Event.println "no session resume",
               Event.debugConfig (confOf host conf.requests sleep "https"),
               Event.printlnAvg (some 0),
               Event.println "no session resume and no keepalive",
               Event.debugConfig (confOf host conf.requests sleep "https"),
               Event.printlnAvg (some 0)] }) := by
  have hz : conf.requests.toNat = 0 := Int.toNat_eq_zero.mpr h
  have hloop : requestLoop env maxHops client conf (requestOf conf suffix) conf.requests.toNat 0 []
      (w.emit (.debugConfig conf)) = .done [] (w.emit (.debugConfig conf)) := by
    rw [hz]; rfl
  refine ⟨hloop, rfl, rfl, ?_, ?_⟩
  · unfold run
    rw [if_pos hurl, hloop]
    simp only [report_eq]
    simp [World.emit, reportedAverage]
  · intro host loglevel sleep level hlevel hhttp hhttps
    rw [main_ok env maxHops host conf.requests loglevel sleep World.init level hlevel hhttp
      hhttps (fun j hj => by rw [hz] at hj; omega), hz]
    simp [World.init, mainEvents, runEvents, loopEvents, readings, reportedAverage]

/-- C10 (amended), at a concrete configuration: with `-requests 0` the default
profile prints the average 0 without issuing a request. -/
theorem run_without_requests_example :
    run (Env.answering []) 1 run_default.client (confOf "example.test" 0 1000000000 "http")
        "run_default" World.init =
      .returned
        { roundTrips := 0, stopwatch := 0
          trace := [Event.debugConfig (confOf "example.test" 0 1000000000 "http"),
            Event.printlnAvg (some 0)] } :=
  (run_without_requests (Env.answering []) 1 run_default.client
    (confOf "example.test" 0 1000000000 "http") "run_default" World.init (by decide)
    (by decide)).2.2.2.1

theorem loopEvents_outline (env : Env) (tr : HttpTransport) (conf : config) (req : Request)
    (i : Int) (s k : Nat) : (loopEvents env tr conf req i s k).filter Event.isOutline = [] := by
  rw [loopEvents_filter]
  simp [iterationEvents, Event.isOutline]

theorem runEvents_outline (env : Env) (tr : HttpTransport) (conf : config) (suffix : String)
    (s n : Nat) :
    (runEvents env tr conf suffix s n).filter Event.isOutline =
      [Event.debugConfig conf, Event.printlnAvg (reportedAverage (readings env s n))] := by
  simp [runEvents, List.filter_cons, List.filter_append, loopEvents_outline, Event.isOutline]

theorem runEvents_steps (env : Env) (tr : HttpTransport) (conf : config) (suffix : String)
    (s n : Nat) :
    (runEvents env tr conf suffix s n).filter Event.isStep =
      (List.range n).flatMap fun j =>
        [Event.now, Event.clientDo (requestOf conf suffix), Event.since (env.since (s + j)),
         Event.drainBody, Event.closeBody, Event.sleep conf.sleep] := by
  simp [runEvents, List.filter_cons, List.filter_append, loopEvents_filter, iterationEvents,
    Event.isStep]

/-- C4, as stated, fails: with `-host "exa mple.test" -requests 0` every request
succeeds (there is none), yet `main` does not make six profile runs: the URL
`http://exa mple.test` does not parse, and the first profile ends the program
in a run-time panic right after logging its configuration. -/
theorem main_panics_on_unparsable_host :
    (∀ j < 6 * (0 : Int).toNat, ∃ res,
      (Env.answering []).roundTrip j = RoundTripResult.response res) ∧
    (Env.answering []).parseURL ("http" ++ "://" ++ "exa mple.test") = false ∧
    main (Env.answering []) 1 "exa mple.test" 0 "info" 0 World.init =
      .panicked
        { roundTrips := 0, stopwatch := 0
          trace :=
            [Event.setLevel 4, Event.println "http", Event.println "default",
             Event.debugConfig
               { host := "exa mple.test", requests := 0, sleep := 0, protocol := "http" }] } := by
  refine ⟨fun _ _ => ⟨_, rfl⟩, by decide, by decide⟩

/-- C4 (amended): for every input configuration whose URLs `http://host` and
`https://host` `http.NewRequest` can parse and on which all requests succeed
(a log level that parses, six times `requests` successful requests), `main`
makes exactly six profile runs in this fixed order: under protocol http two
(default, then no-keepalive), then under protocol https four (default,
no-keepalive, no-session-resume, no-session-resume-and-no-keepalive); no
session-resumption profile runs with protocol http, and host, request count
and sleep are the same in all six runs.  The outline of the trace is what is
printed, plus the configuration each call of `run` logs on entry. -/
theorem main_runs_six_profiles_in_order (env : Env) (maxHops : Nat) (host : String)
    (requests : Int) (loglevel : String) (sleep : Duration) (level : Nat)
    (hlevel : env.parseLevel loglevel = some level)
    (hhttp : env.parseURL ("http" ++ "://" ++ host) = true)
    (hhttps : env.parseURL ("https" ++ "://" ++ host) = true)
    (hok : ∀ j < 6 * requests.toNat, ∃ res, env.roundTrip j = .response res) :
    ∃ w, main env (maxHops + 1) host requests loglevel sleep World.init = .returned w ∧
      w.roundTrips = 6 * requests.toNat ∧
      w.trace.countP Event.isRunEntry = 6 ∧
      w.trace.filter Event.isOutline =
        [Event.println "http",
         Event.println "default",
         Event.debugConfig
           { host := host, requests := requests, sleep := sleep, protocol := "http" },
         Event.printlnAvg (reportedAverage (readings env 0 requests.toNat)),
         Event.println "no keepalive",
         Event.debugConfig
           { host := host, requests := requests, sleep := sleep, protocol := "http" },
         Event.printlnAvg (reportedAverage (readings env requests.toNat requests.toNat)),
         Event.println "https",
         Event.println "default",
         Event.debugConfig
           { host := host, requests := requests, sleep := sleep, protocol := "https" },
         Event.printlnAvg (reportedAverage (readings env (2 * requests.toNat) requests.toNat)),
         Event.println "no keepalive",
         Event.debugConfig
           { host := host, requests := requests, sleep := sleep, protocol := "https" },
         Event.printlnAvg (reportedAverage (readings env (3 * requests.toNat) requests.toNat)),
         Event.println "no session resume",
         Event.debugConfig
           { host := host, requests := requests, sleep := sleep, protocol := "https" },
         Event.printlnAvg (reportedAverage (readings env (4 * requests.toNat) requests.toNat)),
         Event.println "no session resume and no keepalive",
         Event.debugConfig
           { host := host, requests := requests, sleep := sleep, protocol := "https" },
         Event.printlnAvg
           (reportedAverage (readings env (5 * requests.toNat) requests.toNat))] := by
  refine ⟨_, main_ok env maxHops host requests loglevel sleep World.init level hlevel hhttp
    hhttps (fun j hj => by simpa [World.init] using hok j hj), ?_, ?_, ?_⟩
  · simp [World.init]
  · simp only [World.init, List.nil_append, mainEvents, List.countP_cons, List.countP_append,
      List.countP_nil, (runEvents_count _ _ _ _ _ _).1, Event.isRunEntry]
    rfl
  · simp only [World.init, List.nil_append, mainEvents, List.filter_cons, List.filter_append,
      List.filter_nil, runEvents_outline, Event.isOutline, confOf]
    simp only [Nat.zero_add, List.cons_append, List.nil_append, if_true, if_false,
      Bool.false_eq_true]
    have e2 : requests.toNat + requests.toNat = 2 * requests.toNat := by omega
    have e3 : 2 * requests.toNat + requests.toNat = 3 * requests.toNat := by omega
    have e4 : 3 * requests.toNat + requests.toNat = 4 * requests.toNat := by omega
    have e5 : 4 * requests.toNat + requests.toNat = 5 * requests.toNat := by omega
    rw [e2, e3, e4, e5]

/-- C4 (amended), at a concrete configuration: `-host example.test -requests 1`
with a server that answers every request. -/
theorem main_runs_six_profiles_example :
    ∃ w, main (Env.answering []) 1 "example.test" 1 "info" 0 World.init = .returned w ∧
      w.roundTrips = 6 * (1 : Int).toNat ∧
      w.trace.countP Event.isRunEntry = 6 ∧
      w.trace.filter Event.isOutline =
        [Event.println "http",
         Event.println "default",
         Event.debugConfig
           { host := "example.test", requests := 1, sleep := 0, protocol := "http" },
         Event.printlnAvg (reportedAverage (readings (Env.answering []) 0 (1 : Int).toNat)),
         Event.println "no keepalive",
         Event.debugConfig
           { host := "example.test", requests := 1, sleep := 0, protocol := "http" },
         Event.printlnAvg
           (reportedAverage (readings (Env.answering []) (1 : Int).toNat (1 : Int).toNat)),
         Event.println "https",
         Event.println "default",
         Event.debugConfig
           { host := "example.test", requests := 1, sleep := 0, protocol := "https" },
         Event.printlnAvg
           (reportedAverage (readings (Env.answering []) (2 * (1 : Int).toNat) (1 : Int).toNat)),
         Event.println "no keepalive",
         Event.debugConfig
           { host := "example.test", requests := 1, sleep := 0, protocol := "https" },
         Event.printlnAvg
           (reportedAverage (readings (Env.answering []) (3 * (1 : Int).toNat) (1 : Int).toNat)),
         Event.println "no session resume",
         Event.debugConfig
           { host := "example.test", requests := 1, sleep := 0, protocol := "https" },
         Event.printlnAvg
           (reportedAverage (readings (Env.answering []) (4 * (1 : Int).toNat) (1 : Int).toNat)),
         Event.println "no session resume and no keepalive",
         Event.debugConfig
           { host := "example.test", requests := 1, sleep := 0, protocol := "https" },
         Event.printlnAvg
           (reportedAverage
             (readings (Env.answering []) (5 * (1 : Int).toNat) (1 : Int).toNat))] :=
  main_runs_six_profiles_in_order (Env.answering []) 0 "example.test" 1 "info" 0 4 rfl
    (by decide) (by decide) (fun _ _ => ⟨_, rfl⟩)

/-- C5: if, in call number p + 1 of `run` (p < 6 earlier profiles completed,
so the URLs of the profiles run so far parsed), the first k - 1 requests
succeed and request number k, 1 <= k <= requests, returns a transport error, the program ends there through `log.Fatal`: the
trace ends with the start timestamp, the call of `client.Do`, its single
round trip, the reading of the stopwatch and the fatal error (no retry, no
body drain, no sleep after the failed request); exactly k requests were
issued in that run (p * requests + k calls of `client.Do` and as many round
trips in all); no average is printed for that profile (p averages in all);
and no later profile is run (p + 1 calls of `run` in all). -/
theorem failing_request_ends_the_program (env : Env) (maxHops : Nat) (host : String)
    (requests : Int) (loglevel : String) (sleep : Duration) (level : Nat) (p k : Nat)
    (msg : String)
    (hlevel : env.parseLevel loglevel = some level)
    (hhttp : env.parseURL ("http" ++ "://" ++ host) = true)
    (hhttps : 2 ≤ p → env.parseURL ("https" ++ "://" ++ host) = true)
    (hp : p < 6) (hk1 : 1 ≤ k) (hkn : (k : Int) ≤ requests)
    (hok : ∀ j < p * requests.toNat + (k - 1), ∃ res, env.roundTrip j = .response res)
    (herr : env.roundTrip (p * requests.toNat + (k - 1)) = .error msg) :
    ∃ (w : World) (before : List Event) (tr : HttpTransport) (req : Request) (d : Duration),
      main env (maxHops + 1) host requests loglevel sleep World.init = .exited w ∧
      w.trace = before ++ [Event.now, Event.clientDo req, Event.roundTrip tr req, Event.since d,
        Event.fatal msg] ∧
      w.roundTrips = p * requests.toNat + k ∧
      w.trace.countP Event.isDo = p * requests.toNat + k ∧
      w.trace.countP Event.isRoundTrip = p * requests.toNat + k ∧
      w.trace.countP Event.isRunEntry = p + 1 ∧
      w.trace.countP Event.isAverage = p := by
  have h := main_fail env maxHops host requests loglevel sleep level p (k - 1) msg hlevel hhttp
    hhttps hp (by omega) hok herr
  have e : p * requests.toNat + (k - 1) + 1 = p * requests.toNat + k := by omega
  rw [e] at h
  exact h

/-- C5, at the scenario of the specification: three requests per profile and a
transport whose second request fails with a connection error.  The program
exits in its first run after two requests and prints no average. -/
theorem second_request_fails_example :
    ∃ (w : World) (before : List Event) (tr : HttpTransport) (req : Request) (d : Duration),
      main (Env.failingAt 1 []) 1 "example.test" 3 "info" 0 World.init = .exited w ∧
      w.trace = before ++ [Event.now, Event.clientDo req, Event.roundTrip tr req, Event.since d,
        Event.fatal "connection refused"] ∧
      w.roundTrips = 0 * (3 : Int).toNat + 2 ∧
      w.trace.countP Event.isDo = 0 * (3 : Int).toNat + 2 ∧
      w.trace.countP Event.isRoundTrip = 0 * (3 : Int).toNat + 2 ∧
      w.trace.countP Event.isRunEntry = 0 + 1 ∧
      w.trace.countP Event.isAverage = 0 :=
  failing_request_ends_the_program (Env.failingAt 1 []) 0 "example.test" 3 "info" 0 4 0 2
    "connection refused" rfl (by decide) (fun _ => by decide) (by decide) (by decide)
    (by decide)
    (fun j hj => by
      have hj0 : j = 0 := by
        have : j < 1 := hj
        omega
      subst hj0
      exact ⟨_, rfl⟩)
    rfl

/-- C6: each of the four profiles installs a redirect policy that returns
`http.ErrUseLastResponse` for every request and every redirect history, so
`client.Do` returns a redirect response unfollowed after one round trip; a
run of n requests (built from a URL that parsed) that are all answered by
redirects therefore returns after
exactly n calls of `client.Do` and n round trips, with the n samples of the n
iterations: a redirect response is one completed request, not two. -/
theorem redirects_are_returned_unfollowed (client : HttpClient)
    (hclient : client = run_default.client ∨ client = run_no_keepalive.client ∨
      client = run_no_session_resume.client ∨
      client = run_no_session_resume_and_no_keepalive.client) :
    (∀ req via, client.CheckRedirect req via = some GoError.ErrUseLastResponse) ∧
    (∀ (env : Env) (maxHops : Nat) (req : Request) (via : List Request) (w : World)
        (res : Response) (location : String),
      env.roundTrip w.roundTrips = .response res → res.redirect = some location →
      clientDo env client (maxHops + 1) req via w =
        (.ok res, { roundTrips := w.roundTrips + 1, stopwatch := w.stopwatch
                    trace := w.trace ++ [Event.roundTrip client.Transport req] })) ∧
    (∀ (env : Env) (maxHops : Nat) (conf : config) (suffix : String) (w : World),
      env.parseURL (conf.protocol ++ "://" ++ conf.host) = true →
      (∀ j < conf.requests.toNat, ∃ res location,
        env.roundTrip (w.roundTrips + j) = .response res ∧ res.redirect = some location) →
      run env (maxHops + 1) client conf suffix w =
        .returned
          { roundTrips := w.roundTrips + conf.requests.toNat
            stopwatch := w.stopwatch + conf.requests.toNat
            trace := w.trace ++
              runEvents env client.Transport conf suffix w.stopwatch conf.requests.toNat } ∧
      (runEvents env client.Transport conf suffix w.stopwatch conf.requests.toNat).countP
        Event.isDo = conf.requests.toNat ∧
      (runEvents env client.Transport conf suffix w.stopwatch conf.requests.toNat).countP
        Event.isRoundTrip = conf.requests.toNat ∧
      (readings env w.stopwatch conf.requests.toNat).length = conf.requests.toNat) := by
  have hpol : ∀ req via, client.CheckRedirect req via = some GoError.ErrUseLastResponse := by
    rcases hclient with h | h | h | h <;> subst h <;> intro _ _ <;> rfl
  refine ⟨hpol, ?_, ?_⟩
  · intro env maxHops req via w res location hres _
    rw [clientDo_useLast env client hpol, hres]
  · intro env maxHops conf suffix w hurl hok
    have hc := runEvents_count env client.Transport conf suffix w.stopwatch conf.requests.toNat
    refine ⟨run_ok env maxHops client conf suffix w hpol hurl ?_, hc.2.2.2, hc.2.2.1,
      readings_length _ _ _⟩
    intro j hj
    obtain ⟨res, _, h, _⟩ := hok j hj
    exact ⟨res, h⟩

/-- C6, at a concrete run: one request through the default client, answered by
a `302` redirect, is one call of `client.Do`, one round trip and one sample;
the redirect is not followed. -/
theorem redirect_is_one_request_example :
    run (Env.redirecting [10000000]) 1 run_default.client (confOf "example.test" 1 0 "http")
        "run_default" World.init =
      .returned
        { roundTrips := World.init.roundTrips + (confOf "example.test" 1 0 "http").requests.toNat
          stopwatch := World.init.stopwatch + (confOf "example.test" 1 0 "http").requests.toNat
          trace := World.init.trace ++
            runEvents (Env.redirecting [10000000]) run_default.client.Transport
              (confOf "example.test" 1 0 "http") "run_default" World.init.stopwatch
              (confOf "example.test" 1 0 "http").requests.toNat } :=
  ((redirects_are_returned_unfollowed run_default.client (Or.inl rfl)).2.2
    (Env.redirecting [10000000]) 0 (confOf "example.test" 1 0 "http") "run_default" World.init
    (by decide) (fun _ _ => ⟨_, _, rfl, rfl⟩)).1

/-- C9: a successful run with request count n (n >= 1 or not; its request was
built, so the URL parsed) performs, as its steps, exactly
n repetitions of: record the start, issue the request, record the elapsed
time, drain the response body, close the body, sleep for the configured delay.
The elapsed time is read before the body is drained, the sleep happens n
times (also after the last request), and a request is issued only after the
previous body was drained and the previous sleep performed.  The whole trace
of the run is given as well: it adds the round trip inside `client.Do` and
the lines sent to the logger. -/
theorem run_repeats_the_six_steps (env : Env) (maxHops : Nat) (client : HttpClient)
    (conf : config) (suffix : String) (w : World)
    (hpol : ∀ r via, client.CheckRedirect r via = some GoError.ErrUseLastResponse)
    (hurl : env.parseURL (conf.protocol ++ "://" ++ conf.host) = true)
    (hok : ∀ j < conf.requests.toNat, ∃ res, env.roundTrip (w.roundTrips + j) = .response res) :
    ∃ events : List Event,
      run env (maxHops + 1) client conf suffix w =
        .returned
          { roundTrips := w.roundTrips + conf.requests.toNat
            stopwatch := w.stopwatch + conf.requests.toNat
            trace := w.trace ++ events } ∧
      events.filter Event.isStep =
        (List.range conf.requests.toNat).flatMap (fun j =>
          [Event.now, Event.clientDo (requestOf conf suffix),
           Event.since (env.since (w.stopwatch + j)), Event.drainBody, Event.closeBody,
           Event.sleep conf.sleep]) ∧
      events.countP (fun e => e == Event.sleep conf.sleep) = conf.requests.toNat ∧
      events =
        Event.debugConfig conf ::
          ((List.range conf.requests.toNat).flatMap (fun j =>
            [Event.now, Event.clientDo (requestOf conf suffix),
             Event.roundTrip client.Transport (requestOf conf suffix),
             Event.since (env.since (w.stopwatch + j)), Event.drainBody, Event.closeBody,
             Event.debugCount (0 + j), Event.debugDuration (env.since (w.stopwatch + j)),
             Event.debugSleeping conf.sleep, Event.sleep conf.sleep]) ++
          [Event.printlnAvg (reportedAverage (readings env w.stopwatch conf.requests.toNat))]) := by
  refine ⟨_, run_ok env maxHops client conf suffix w hpol hurl hok, runEvents_steps _ _ _ _ _ _,
    ?_,
    rfl⟩
  simp only [runEvents, List.countP_cons, List.countP_append, List.countP_nil]
  rw [loopEvents_countP env client.Transport conf _ _ 1 (fun _ _ => by
    simp [iterationEvents, List.countP_cons])]
  simp

/-- C9, at a concrete run: two requests with a delay of one second, answered
after 10ms and 20ms. -/
theorem run_repeats_the_six_steps_example :
    ∃ events : List Event,
      run (Env.answering [10000000, 20000000]) 1 run_default.client
          (confOf "example.test" 2 1000000000 "http") "run_default" World.init =
        .returned { roundTrips := 2, stopwatch := 2, trace := events } ∧
      events.filter Event.isStep =
        [Event.now,
         Event.clientDo
           { method := "HEAD", url := "http://example.test", userAgent := "SSLTest-run_default" },
         Event.since 10000000, Event.drainBody, Event.closeBody, Event.sleep 1000000000,
         Event.now,
         Event.clientDo
           { method := "HEAD", url := "http://example.test", userAgent := "SSLTest-run_default" },
         Event.since 20000000, Event.drainBody, Event.closeBody, Event.sleep 1000000000] := by
  obtain ⟨events, h1, h2, _⟩ := run_repeats_the_six_steps (Env.answering [10000000, 20000000]) 0
    run_default.client (confOf "example.test" 2 1000000000 "http") "run_default" World.init
    (fun _ _ => rfl) (by decide) (fun _ _ => ⟨_, rfl⟩)
  refine ⟨events, ?_, ?_⟩
  · rw [h1]
    simp [World.init]
    decide
  · rw [h2]
    decide

/-- C7, as stated, fails in its last part: the session cache is not attached
for https only.  In the first run of the program, under protocol http, the
request to `http://example.test` goes through a transport whose TLS
configuration carries the single-slot LRU session cache. -/
theorem session_cache_attached_under_http :
    main (Env.answering []) 1 "example.test" 1 "info" 0 World.init =
      .returned
        { roundTrips := 6, stopwatch := 6
          trace := Event.setLevel 4 :: mainEvents (Env.answering []) "example.test" 1 0 0 1 } ∧
    Event.roundTrip
        { DisableKeepAlives := false
          TLSClientConfig :=
            { SessionTicketsDisabled := false
              ClientSessionCache := some (.lru { capacity := 1, entries := [] }) } }
        { method := "HEAD", url := "http://example.test", userAgent := "SSLTest-run_default" } ∈
      mainEvents (Env.answering []) "example.test" 1 0 0 1 := by
  constructor
  · rw [main_ok (Env.answering []) 0 "example.test" 1 "info" 0 World.init 4 rfl (by decide)
      (by decide) (fun _ _ => ⟨_, rfl⟩)]
    simp [World.init]
  · have h : Event.roundTrip run_default.tr
        (requestOf (confOf "example.test" 1 0 "http") "run_default") ∈
        loopEvents (Env.answering []) run_default.tr (confOf "example.test" 1 0 "http")
          (requestOf (confOf "example.test" 1 0 "http") "run_default") 0 0 1 := by
      rw [loopEvents_succ]
      simp [iterationEvents]
    have h2 : Event.roundTrip run_default.tr
        (requestOf (confOf "example.test" 1 0 "http") "run_default") ∈
        mainEvents (Env.answering []) "example.test" 1 0 0 1 := by
      simp only [mainEvents, runEvents, List.mem_append, List.mem_cons]
      left; left; left; left; left; left; left; left; left; left
      right; right; left
      exact h
    exact h2

/-- C7 (amended): each profile builds a fresh client whose settings equal the
profile table: default = keep-alive enabled, session tickets enabled, empty
single-slot LRU session cache; no-keepalive = keep-alive disabled, session
tickets enabled, empty single-slot LRU session cache; no-session-resume =
keep-alive enabled, session tickets disabled, null cache;
no-session-resume-and-no-keepalive = keep-alive disabled, session tickets
disabled, null cache.  The two axes are set independently, every client has
the redirect policy that returns the last response, and the client a profile
builds does not depend on the configuration: the session cache is attached
under http and under https alike. -/
theorem profiles_build_their_clients (env : Env) (maxHops : Nat) (conf : config) (w : World) :
    run_default env maxHops conf w =
      run env maxHops
        { CheckRedirect := fun _ _ => some GoError.ErrUseLastResponse
          Transport :=
            { DisableKeepAlives := false
              TLSClientConfig :=
                { SessionTicketsDisabled := false
                  ClientSessionCache := some (.lru { capacity := 1, entries := [] }) } } }
        conf "run_default" (w.emit (.println "default")) ∧
    run_no_keepalive env maxHops conf w =
      run env maxHops
        { CheckRedirect := fun _ _ => some GoError.ErrUseLastResponse
          Transport :=
            { DisableKeepAlives := true
              TLSClientConfig :=
                { SessionTicketsDisabled := false
                  ClientSessionCache := some (.lru { capacity := 1, entries := [] }) } } }
        conf "run_no_keepalive" (w.emit (.println "no keepalive")) ∧
    run_no_session_resume env maxHops conf w =
      run env maxHops
        { CheckRedirect := fun _ _ => some GoError.ErrUseLastResponse
          Transport :=
            { DisableKeepAlives := false
              TLSClientConfig :=
                { SessionTicketsDisabled := true
                  ClientSessionCache := some (.null {}) } } }
        conf "run_no_session_resume" (w.emit (.println "no session resume")) ∧
    run_no_session_resume_and_no_keepalive env maxHops conf w =
      run env maxHops
        { CheckRedirect := fun _ _ => some GoError.ErrUseLastResponse
          Transport :=
            { DisableKeepAlives := true
              TLSClientConfig :=
                { SessionTicketsDisabled := true
                  ClientSessionCache := some (.null {}) } } }
        conf "run_no_session_resume_and_no_keepalive"
        (w.emit (.println "no session resume and no keepalive")) :=
  ⟨rfl, rfl, rfl, rfl⟩

end SSLTest
